import Mathlib

/-!
Verification development for the EVMore atomic-commitment and cross-ledger
routing engine (CosmWasm contracts under contracts/cosmwasm).

The Rust sources are shallowly embedded:
* u64/Uint128 arithmetic is modelled on `Nat`.  The Rust integers are
  overflow-checked (they panic and abort the transaction rather than wrap),
  so the unbounded `Nat` model agrees with the source on every run that does
  not abort; panics reachable in the claims under study (zero denominators,
  out-of-bounds indexing) are modelled explicitly as errors.
* `cosmwasm_std::Decimal` is an 18-fractional-digit fixed-point number;
  it is modelled by its atomics (a `Nat`, value = atomics / 10^18).
* Storage maps are association lists, transactional semantics: an operation
  either returns the committed new state or an error with no state change.
* Host collaborators (bech32 address validation, JSON serialization of
  packet memos, the Osmosis poolmanager querier) are abstracted: addresses
  are strings, memos are kept as structured values, the swap estimator is an
  oracle function.
-/

set_option maxRecDepth 8000

/-! ## Byte and hex utilities

Bytes are `Nat` values below 256.  `hexDecode` mirrors `hex::decode` from
the Rust hex crate (even number of hex digits required, case insensitive);
`hexEncode` mirrors `hex::encode` (lowercase output). -/

def hexDigitVal? (c : Char) : Option Nat :=
  if '0' ≤ c ∧ c ≤ '9' then some (c.toNat - '0'.toNat)
  else if 'a' ≤ c ∧ c ≤ 'f' then some (c.toNat - 'a'.toNat + 10)
  else if 'A' ≤ c ∧ c ≤ 'F' then some (c.toNat - 'A'.toNat + 10)
  else none

def hexDecodeList : List Char → Option (List Nat)
  | [] => some []
  | [_] => none
  | c1 :: c2 :: rest =>
    match hexDigitVal? c1, hexDigitVal? c2, hexDecodeList rest with
    | some hi, some lo, some bs => some ((hi * 16 + lo) :: bs)
    | _, _, _ => none

def hexDecode (s : String) : Option (List Nat) := hexDecodeList s.data

def hexDigitChar (n : Nat) : Char :=
  if n < 10 then Char.ofNat ('0'.toNat + n) else Char.ofNat ('a'.toNat + (n - 10))

def hexEncodeList : List Nat → List Char
  | [] => []
  | b :: rest => hexDigitChar (b / 16) :: hexDigitChar (b % 16) :: hexEncodeList rest

def hexEncode (bs : List Nat) : String := ⟨hexEncodeList bs⟩

/-! ## SHA-256

Executable model of SHA-256 (FIPS 180-4), the hash used by `withdraw` in
`htlc/src/contract.rs` through the Rust sha2 crate.  Words are `Nat`
values kept below `2^32` by the mask `w32`. -/

namespace Sha256

def w32 (x : Nat) : Nat := x % 2 ^ 32

def rotr (n x : Nat) : Nat := w32 ((x >>> n) + (x <<< (32 - n)))

def bsig0 (x : Nat) : Nat := (rotr 2 x) ^^^ (rotr 13 x) ^^^ (rotr 22 x)

def bsig1 (x : Nat) : Nat := (rotr 6 x) ^^^ (rotr 11 x) ^^^ (rotr 25 x)

def ssig0 (x : Nat) : Nat := (rotr 7 x) ^^^ (rotr 18 x) ^^^ (x >>> 3)

def ssig1 (x : Nat) : Nat := (rotr 17 x) ^^^ (rotr 19 x) ^^^ (x >>> 10)

def ch (x y z : Nat) : Nat := (x &&& y) ^^^ ((2 ^ 32 - 1 - x) &&& z)

def maj (x y z : Nat) : Nat := (x &&& y) ^^^ (x &&& z) ^^^ (y &&& z)

def K : List Nat :=
  [1116352408, 1899447441, 3049323471, 3921009573, 961987163,
   1508970993, 2453635748, 2870763221, 3624381080, 310598401,
   607225278, 1426881987, 1925078388, 2162078206, 2614888103,
   3248222580, 3835390401, 4022224774, 264347078, 604807628,
   770255983, 1249150122, 1555081692, 1996064986, 2554220882,
   2821834349, 2952996808, 3210313671, 3336571891, 3584528711,
   113926993, 338241895, 666307205, 773529912, 1294757372,
   1396182291, 1695183700, 1986661051, 2177026350, 2456956037,
   2730485921, 2820302411, 3259730800, 3345764771, 3516065817,
   3600352804, 4094571909, 275423344, 430227734, 506948616,
   659060556, 883997877, 958139571, 1322822218, 1537002063,
   1747873779, 1955562222, 2024104815, 2227730452, 2361852424,
   2428436474, 2756734187, 3204031479, 3329325298]

/-- Big-endian byte rendering of a value, fixed width. -/
def beBytes : Nat → Nat → List Nat
  | 0, _ => []
  | n + 1, v => beBytes n (v / 256) ++ [v % 256]

def padMessage (msg : List Nat) : List Nat :=
  let l := msg.length
  let k := (120 - ((l + 1) % 64)) % 64
  msg ++ [0x80] ++ List.replicate k 0 ++ beBytes 8 (8 * l)

def toWords : List Nat → List Nat
  | b0 :: b1 :: b2 :: b3 :: rest => ((((b0 * 256) + b1) * 256 + b2) * 256 + b3) :: toWords rest
  | _ => []

def toBlocksAux : Nat → List Nat → List (List Nat)
  | 0, _ => []
  | _ + 1, [] => []
  | n + 1, b :: rest => ((b :: rest).take 64) :: toBlocksAux n ((b :: rest).drop 64)

def toBlocks (l : List Nat) : List (List Nat) := toBlocksAux l.length l

def extendSchedule : Nat → List Nat → List Nat
  | 0, ws => ws
  | n + 1, ws =>
    let t := ws.length
    extendSchedule n
      (ws ++ [w32 (ssig1 (ws.getD (t - 2) 0) + ws.getD (t - 7) 0 +
                   ssig0 (ws.getD (t - 15) 0) + ws.getD (t - 16) 0)])

structure Hs where
  a : Nat
  b : Nat
  c : Nat
  d : Nat
  e : Nat
  f : Nat
  g : Nat
  h : Nat

def round (st : Hs) (k w : Nat) : Hs :=
  let t1 := w32 (st.h + bsig1 st.e + ch st.e st.f st.g + k + w)
  let t2 := w32 (bsig0 st.a + maj st.a st.b st.c)
  { a := w32 (t1 + t2), b := st.a, c := st.b, d := st.c,
    e := w32 (st.d + t1), f := st.e, g := st.f, h := st.g }

def compressBlock (st : Hs) (block : List Nat) : Hs :=
  let ws := extendSchedule 48 (toWords block)
  let fin := (K.zip ws).foldl (fun s kw => round s kw.1 kw.2) st
  { a := w32 (st.a + fin.a), b := w32 (st.b + fin.b), c := w32 (st.c + fin.c),
    d := w32 (st.d + fin.d), e := w32 (st.e + fin.e), f := w32 (st.f + fin.f),
    g := w32 (st.g + fin.g), h := w32 (st.h + fin.h) }

def initHs : Hs :=
  ⟨1779033703, 3144134277, 1013904242,
   2773480762, 1359893119, 2600822924,
   528734635, 1541459225⟩

end Sha256

/-- SHA-256 digest of a byte list, as a list of 32 bytes. -/
def sha256 (msg : List Nat) : List Nat :=
  let stf := (Sha256.toBlocks (Sha256.padMessage msg)).foldl Sha256.compressBlock Sha256.initHs
  Sha256.beBytes 4 stf.a ++ Sha256.beBytes 4 stf.b ++ Sha256.beBytes 4 stf.c ++
  Sha256.beBytes 4 stf.d ++ Sha256.beBytes 4 stf.e ++ Sha256.beBytes 4 stf.f ++
  Sha256.beBytes 4 stf.g ++ Sha256.beBytes 4 stf.h

/-! ## Fixed-point decimals

`cosmwasm_std::Decimal` has 18 fractional digits; a value is represented by
its atomics.  `Decimal::one()` is `10^18` atomics, `Decimal::permille n` is
`n * 10^15`, `Decimal::percent n` is `n * 10^16`.  `Uint128 * Decimal`
multiplies by the atomics and floor-divides by `10^18`;
`Decimal::from_ratio a b` is `a * 10^18 / b` rounded down (it panics when
`b = 0`; the callers below surface that case as an explicit error). -/

def decOne : Nat := 10 ^ 18

def decPermille (n : Nat) : Nat := n * 10 ^ 15

def decPercent (n : Nat) : Nat := n * 10 ^ 16

/-- `Uint128 * Decimal`: floor of the product. -/
def mulUintDec (u d : Nat) : Nat := u * d / decOne

/-- `Decimal::from_ratio a b` (atomics); meaningful only for `b ≠ 0`. -/
def decFrac (a b : Nat) : Nat := a * decOne / b

/-! ## Generic association-list storage

`cw_storage_plus::Map` keyed storage: `saveKV` inserts or replaces,
`loadKV` is `may_load` (and a `none` result makes `load` fail). -/

def saveKV {α : Type} : List (Nat × α) → Nat → α → List (Nat × α)
  | [], k, v => [(k, v)]
  | (k', v') :: rest, k, v =>
    if k' = k then (k, v) :: rest else (k', v') :: saveKV rest k v

def loadKV {α : Type} : List (Nat × α) → Nat → Option α
  | [], _ => none
  | (k', v') :: rest, k => if k' = k then some v' else loadKV rest k

/-! ## Shared protocol configuration (packages/fusion-plus/src/config.rs)

Only the fields the contracts read are carried; the `cascade` timelock table
and the static `chains` list are consulted by no code under study and are
omitted from the model. -/

structure TimelockConfig where
  max_duration : Nat
deriving DecidableEq, Repr

structure SwapConfig where
  timelock : TimelockConfig
deriving DecidableEq, Repr

structure PoolDiscoveryRange where
  start : Nat
  /-- Source field name is `end`, a Lean keyword. -/
  range_end : Nat
deriving DecidableEq, Repr

structure RoutingConfig where
  max_hops : Nat
  max_routes_to_explore : Nat
  minimal_amount : Nat
  pool_discovery_range : PoolDiscoveryRange
deriving DecidableEq, Repr

structure ProtocolConfig where
  swap : SwapConfig
  routing : RoutingConfig
deriving DecidableEq, Repr

def ProtocolConfig.default : ProtocolConfig :=
  { swap := { timelock := { max_duration := 172800 } },
    routing := { max_hops := 4, max_routes_to_explore := 100, minimal_amount := 1000,
                 pool_discovery_range := { start := 1, range_end := 1000 } } }

def ProtocolConfig.get_max_timelock_duration (c : ProtocolConfig) : Nat :=
  c.swap.timelock.max_duration

structure Coin where
  denom : String
  amount : Nat
deriving DecidableEq, Repr

/-! ## HashlockVault: the HTLC contract (htlc/src/contract.rs) -/

namespace Vault

/-- dex.rs `SwapRoute`. -/
structure SwapRoute where
  pool_id : Nat
  token_out_denom : String
deriving DecidableEq, Repr

/-- dex.rs `SwapParams`; `slippage_tolerance` is a Decimal (atomics). -/
structure SwapParams where
  routes : List SwapRoute
  min_output_amount : Nat
  slippage_tolerance : Nat
deriving DecidableEq, Repr

/-- state.rs `Htlc`.  Addresses are strings (bech32 validation is host-side). -/
structure Htlc where
  sender : String
  receiver : String
  amount : List Coin
  hashlock : String
  timelock : Nat
  withdrawn : Bool
  refunded : Bool
  target_chain : String
  target_address : String
  swap_params : Option SwapParams
  swap_executed : Bool
deriving DecidableEq, Repr

structure Config where
  admin : String
  protocol_config : ProtocolConfig
deriving DecidableEq, Repr

/-- The contract storage: `CONFIG`, `HTLCS`, `HTLC_COUNT`.  The source keys
commitments by the string `htlc_{count}`; since `n ↦ "htlc_" ++ decimal n`
is injective, the model keys them by the counter value `n` directly. -/
structure VaultState where
  config : Config
  htlcs : List (Nat × Htlc)
  count : Nat
deriving DecidableEq, Repr

inductive ContractError where
  | Std (msg : String)
  | Unauthorized
  | InvalidSecret
  | TimelockNotExpired
  | AlreadyWithdrawn
  | AlreadyRefunded
  | InvalidAmount
  | InvalidTimelock
  | InvalidHashFormat
  | TargetChainRequired
  | TargetAddressRequired
  | InsufficientOutputAmount
  | SwapAlreadyExecuted
deriving DecidableEq, Repr

/-- The messages the HTLC contract emits: `BankMsg::Send` and the Osmosis
`MsgSwapExactAmountIn` (attributes are informational and not modelled). -/
inductive CosmosMsg where
  | bankSend (to_address : String) (amount : List Coin)
  | swapExactAmountIn (sender : String) (routes : List SwapRoute)
      (token_in : Coin) (token_out_min_amount : Nat)
deriving DecidableEq, Repr

structure Response where
  messages : List CosmosMsg
deriving DecidableEq, Repr

/-- `env.block.time.seconds()` and `env.contract.address`; `swap_estimate`
is the external Osmosis poolmanager estimator consulted by
`create_htlc_with_swap` (`dex::estimate_swap`), modelled as an oracle
returning the estimated `token_out_amount`. -/
structure Env where
  block_time : Nat
  contract_address : String
  swap_estimate : Coin → List SwapRoute → Except String Nat

structure MessageInfo where
  sender : String
  funds : List Coin

def HASHLOCK_LENGTH : Nat := 64

/-- dex.rs `validate_swap_params`. -/
def validate_swap_params (p : SwapParams) : Except ContractError Unit :=
  if p.routes.isEmpty then .error (.Std "Swap routes cannot be empty")
  else if p.min_output_amount = 0 then
    .error (.Std "Minimum output amount must be greater than zero")
  else if decPercent 50 < p.slippage_tolerance then
    .error (.Std "Slippage tolerance cannot exceed 50%")
  else .ok ()

/-- contract.rs `instantiate`: stores the admin (defaulting to the caller)
and `ProtocolConfig::default()`, and zeroes the counter. -/
def instantiate (admin : Option String) (info : MessageInfo) : VaultState :=
  { config := { admin := admin.getD info.sender, protocol_config := ProtocolConfig.default },
    htlcs := [], count := 0 }

/-- contract.rs `create_htlc`. -/
def create_htlc (s : VaultState) (env : Env) (info : MessageInfo)
    (receiver hashlock : String) (timelock : Nat)
    (target_chain target_address : String) :
    Except ContractError (VaultState × Response) :=
  if info.funds.isEmpty then .error .InvalidAmount
  else if timelock ≤ env.block_time then .error .InvalidTimelock
  else if env.block_time + s.config.protocol_config.get_max_timelock_duration < timelock then
    .error .InvalidTimelock
  else if target_chain.isEmpty then .error .TargetChainRequired
  else if target_address.isEmpty then .error .TargetAddressRequired
  else if hashlock.length ≠ HASHLOCK_LENGTH ∨ (hexDecode hashlock).isNone then
    .error .InvalidHashFormat
  else
    let htlc : Htlc :=
      { sender := info.sender, receiver := receiver, amount := info.funds,
        hashlock := hashlock, timelock := timelock, withdrawn := false, refunded := false,
        target_chain := target_chain, target_address := target_address,
        swap_params := none, swap_executed := false }
    .ok ({ s with htlcs := saveKV s.htlcs s.count htlc, count := s.count + 1 },
         { messages := [] })

/-- contract.rs `withdraw`. -/
def withdraw (s : VaultState) (_env : Env) (_info : MessageInfo)
    (htlc_id : Nat) (secret : String) :
    Except ContractError (VaultState × Response) :=
  match loadKV s.htlcs htlc_id with
  | none => .error (.Std "htlc not found")
  | some htlc =>
    if htlc.withdrawn then .error .AlreadyWithdrawn
    else if htlc.refunded then .error .AlreadyRefunded
    else
      match hexDecode secret with
      | none => .error .InvalidHashFormat
      | some secret_bytes =>
        if hexEncode (sha256 secret_bytes) ≠ htlc.hashlock then .error .InvalidSecret
        else
          .ok ({ s with htlcs := saveKV s.htlcs htlc_id { htlc with withdrawn := true } },
               { messages := [.bankSend htlc.receiver htlc.amount] })

/-- contract.rs `refund`. -/
def refund (s : VaultState) (env : Env) (info : MessageInfo) (htlc_id : Nat) :
    Except ContractError (VaultState × Response) :=
  match loadKV s.htlcs htlc_id with
  | none => .error (.Std "htlc not found")
  | some htlc =>
    if htlc.withdrawn then .error .AlreadyWithdrawn
    else if htlc.refunded then .error .AlreadyRefunded
    else if info.sender ≠ htlc.sender then .error .Unauthorized
    else if env.block_time < htlc.timelock then .error .TimelockNotExpired
    else
      .ok ({ s with htlcs := saveKV s.htlcs htlc_id { htlc with refunded := true } },
           { messages := [.bankSend htlc.sender htlc.amount] })

/-- contract.rs `build_osmosis_swap_msg`. -/
def build_osmosis_swap_msg (token_in : Coin) (routes : List SwapRoute)
    (min_output_amount : Nat) (sender : String) : CosmosMsg :=
  .swapExactAmountIn sender routes token_in min_output_amount

/-- contract.rs `create_htlc_with_swap`. -/
def create_htlc_with_swap (s : VaultState) (env : Env) (info : MessageInfo)
    (receiver hashlock : String) (timelock : Nat)
    (target_chain target_address : String) (swap_params : SwapParams) :
    Except ContractError (VaultState × Response) :=
  match validate_swap_params swap_params with
  | .error e => .error e
  | .ok _ =>
    if info.funds.isEmpty then .error .InvalidAmount
    else if timelock ≤ env.block_time then .error .InvalidTimelock
    else if env.block_time + s.config.protocol_config.get_max_timelock_duration < timelock then
      .error .InvalidTimelock
    else if target_chain.isEmpty then .error .TargetChainRequired
    else if target_address.isEmpty then .error .TargetAddressRequired
    else if hashlock.length ≠ 64 ∨ (hexDecode hashlock).isNone then
      .error .InvalidHashFormat
    else
      match info.funds with
      | [] => .error (.Std "panic: index out of bounds on info.funds")
      | token_in :: _ =>
        match env.swap_estimate token_in swap_params.routes with
        | .error e => .error (.Std e)
        | .ok token_out_amount =>
          if token_out_amount < swap_params.min_output_amount then
            .error .InsufficientOutputAmount
          else
            let htlc : Htlc :=
              { sender := info.sender, receiver := receiver, amount := info.funds,
                hashlock := hashlock, timelock := timelock, withdrawn := false,
                refunded := false, target_chain := target_chain,
                target_address := target_address,
                swap_params := some swap_params, swap_executed := false }
            .ok ({ s with htlcs := saveKV s.htlcs s.count htlc, count := s.count + 1 },
                 { messages := [] })

/-- contract.rs `execute_swap_and_lock`.  The `htlc.amount[0]` indexing of
the source panics (aborting the transaction) on an empty amount; the model
surfaces that as an error. -/
def execute_swap_and_lock (s : VaultState) (env : Env) (info : MessageInfo)
    (htlc_id : Nat) (swap_params : SwapParams) :
    Except ContractError (VaultState × Response) :=
  match loadKV s.htlcs htlc_id with
  | none => .error (.Std "htlc not found")
  | some htlc =>
    if info.sender ≠ htlc.sender ∧ info.sender ≠ s.config.admin then .error .Unauthorized
    else if htlc.swap_executed then .error .SwapAlreadyExecuted
    else
      match validate_swap_params swap_params with
      | .error e => .error e
      | .ok _ =>
        match htlc.amount with
        | [] => .error (.Std "panic: index out of bounds on htlc.amount")
        | token_in :: _ =>
          let swap_msg := build_osmosis_swap_msg token_in swap_params.routes
            swap_params.min_output_amount env.contract_address
          let htlc' := { htlc with swap_executed := true, swap_params := some swap_params }
          .ok ({ s with htlcs := saveKV s.htlcs htlc_id htlc' },
               { messages := [swap_msg] })

inductive ExecuteMsg where
  | CreateHtlc (receiver hashlock : String) (timelock : Nat)
      (target_chain target_address : String)
  | Withdraw (htlc_id : Nat) (secret : String)
  | Refund (htlc_id : Nat)
  | CreateHtlcWithSwap (receiver hashlock : String) (timelock : Nat)
      (target_chain target_address : String) (swap_params : SwapParams)
  | ExecuteSwapAndLock (htlc_id : Nat) (swap_params : SwapParams)

/-- contract.rs `execute`: the dispatch of `ExecuteMsg`. -/
def execute (s : VaultState) (env : Env) (info : MessageInfo) :
    ExecuteMsg → Except ContractError (VaultState × Response)
  | .CreateHtlc receiver hashlock timelock target_chain target_address =>
    create_htlc s env info receiver hashlock timelock target_chain target_address
  | .Withdraw htlc_id secret => withdraw s env info htlc_id secret
  | .Refund htlc_id => refund s env info htlc_id
  | .CreateHtlcWithSwap receiver hashlock timelock target_chain target_address swap_params =>
    create_htlc_with_swap s env info receiver hashlock timelock
      target_chain target_address swap_params
  | .ExecuteSwapAndLock htlc_id swap_params =>
    execute_swap_and_lock s env info htlc_id swap_params

/-- The host transaction boundary: an `Ok` result commits the new state, an
error aborts with no state change. -/
def applyExecute (s : VaultState) (env : Env) (info : MessageInfo) (msg : ExecuteMsg) :
    VaultState :=
  match execute s env info msg with
  | .ok (s', _) => s'
  | .error _ => s

/-- States reachable from `instantiate` through committed `execute` calls. -/
inductive Reachable : VaultState → Prop where
  | instantiated (admin : Option String) (info : MessageInfo) :
      Reachable (instantiate admin info)
  | step {s s' : VaultState} {env : Env} {info : MessageInfo} {msg : ExecuteMsg}
      {resp : Response} :
      Reachable s → execute s env info msg = .ok (s', resp) → Reachable s'

end Vault

/-! ## Router contract (router/src) -/

namespace Router

/-- msg.rs `PoolType`. -/
inductive PoolType where
  | Balancer
  | StableSwap
  | ConcentratedLiquidity
deriving DecidableEq, Repr

/-- msg.rs `PoolInfo`; `swap_fee` and `exit_fee` are Decimals (atomics). -/
structure PoolInfo where
  pool_id : Nat
  chain_id : String
  pool_type : PoolType
  token_denoms : List String
  liquidity : List Coin
  swap_fee : Nat
  exit_fee : Nat
deriving DecidableEq, Repr

/-- msg.rs `HopRoute`. -/
structure HopRoute where
  chain_id : String
  pool_id : Nat
  token_in_denom : String
  token_out_denom : String
deriving DecidableEq, Repr

/-- routing.rs `RouteNode`; `total_fee` is a Decimal (atomics). -/
structure RouteNode where
  denom : String
  amount : Nat
  path : List HopRoute
  total_fee : Nat
deriving DecidableEq, Repr

/-- contract.rs / msg.rs `ChainConfig`. -/
structure ChainConfig where
  chain_id : String
  chain_prefix : String
  ibc_channel : String
  native_denom : String
deriving DecidableEq, Repr

/-- The router's storage and external collaborators: `POOL_REGISTRY`,
the protocol configuration, `CHAIN_CONFIGS`, `ROUTER_REGISTRY`, the
optional chain-registry contract address, and the cross-contract
registry query (an oracle, since it runs on another contract). -/
structure RouterStore where
  pools : Nat → Option PoolInfo
  protocol_config : ProtocolConfig
  chain_configs : String → Option ChainConfig
  routers : String → Option String
  registry_contract : Option String
  registry_router : String → Except String String

/-- routing.rs `calculate_swap_output`.  The two `Decimal::from_ratio`
calls panic in Rust when their denominator is zero, aborting the
transaction; the model surfaces those panics as errors. -/
def calculate_swap_output (pool_info : PoolInfo)
    (token_in_denom token_out_denom : String) (amount_in : Nat) :
    Except String (Nat × Nat) :=
  match pool_info.liquidity.find? (fun c => c.denom == token_in_denom) with
  | none => .error "Token in not found in pool"
  | some cin =>
    match pool_info.liquidity.find? (fun c => c.denom == token_out_denom) with
    | none => .error "Token out not found in pool"
    | some cout =>
      let balance_in := cin.amount
      let balance_out := cout.amount
      let amount_in_with_fee := mulUintDec amount_in (decOne - pool_info.swap_fee)
      match pool_info.pool_type with
      | .Balancer =>
        if balance_in + amount_in_with_fee = 0 then
          .error "panic: Decimal::from_ratio with zero denominator"
        else
          let inPart := decFrac balance_in (balance_in + amount_in_with_fee)
          let outPart := decOne - inPart
          .ok (mulUintDec balance_out outPart, pool_info.swap_fee)
      | .StableSwap => .ok (amount_in_with_fee, pool_info.swap_fee)
      | .ConcentratedLiquidity =>
        if balance_in = 0 then
          .error "panic: Decimal::from_ratio with zero denominator"
        else
          let price := decFrac balance_out balance_in
          .ok (mulUintDec amount_in_with_fee price, pool_info.swap_fee)

/-- The inclusive id range `start..=end` scanned by pool discovery. -/
def rangeIds (r : PoolDiscoveryRange) : List Nat :=
  List.range' r.start (r.range_end + 1 - r.start)

/-- routing.rs `find_pools_with_denom`.  The source collects matching ids
into a `HashSet` and then lists them in unspecified order; the model keeps
the ascending scan order of the `start..=end` loop. -/
def find_pools_with_denom (store : RouterStore) (denom : String) : List Nat :=
  (rangeIds store.protocol_config.routing.pool_discovery_range).filter fun pid =>
    match store.pools pid with
    | some p => p.token_denoms.contains denom
    | none => false

/-- The mutable state of the BFS in routing.rs `find_best_routes`:
`queue`, `visited` and `all_routes`. -/
structure SearchState where
  queue : List RouteNode
  visited : List String
  routes : List RouteNode

/-- The body of the inner `for other_denom in &pool_info.token_denoms`
loop of `find_best_routes`. -/
def processDenom (end_denom : String) (max_explore : Nat) (pool : PoolInfo)
    (node : RouteNode) (st : SearchState) (other : String) :
    Except String SearchState :=
  if other = node.denom ∨ st.visited.contains other then .ok st
  else
    match calculate_swap_output pool node.denom other node.amount with
    | .error e => .error e
    | .ok (amount_out, fee) =>
      let new_node : RouteNode :=
        { denom := other, amount := amount_out,
          path := node.path ++ [{ chain_id := pool.chain_id, pool_id := pool.pool_id,
                                  token_in_denom := node.denom, token_out_denom := other }],
          total_fee := node.total_fee + fee }
      if other = end_denom then .ok { st with routes := st.routes ++ [new_node] }
      else
        .ok { st with queue := st.queue ++ [new_node],
                      visited := if st.routes.length < max_explore then
                                   st.visited ++ [other]
                                 else st.visited }

def processDenoms (end_denom : String) (max_explore : Nat) (pool : PoolInfo)
    (node : RouteNode) : List String → SearchState → Except String SearchState
  | [], st => .ok st
  | d :: rest, st =>
    match processDenom end_denom max_explore pool node st d with
    | .error e => .error e
    | .ok st2 => processDenoms end_denom max_explore pool node rest st2

/-- The `for pool_id in pools` loop of `find_best_routes`, including the
`POOL_REGISTRY.load` of each discovered pool. -/
def processPools (store : RouterStore) (end_denom : String) (node : RouteNode) :
    List Nat → SearchState → Except String SearchState
  | [], st => .ok st
  | pid :: rest, st =>
    match store.pools pid with
    | none => .error "pool not found"
    | some pool =>
      match processDenoms end_denom
          store.protocol_config.routing.max_routes_to_explore pool node
          pool.token_denoms st with
      | .error e => .error e
      | .ok st2 => processPools store end_denom node rest st2

/-- The `while let Some(node) = queue.pop_front()` loop of
`find_best_routes`.  The Rust loop terminates because every enqueued node
extends its parent's path by one hop and nodes at `max_hops` are not
expanded; the explicit fuel below makes the recursion structural, and
every property proved about the loop holds for all fuel values. -/
def bfsLoop (store : RouterStore) (end_denom : String) (max_hops : Nat) :
    Nat → SearchState → Except String (List RouteNode)
  | 0, st => .ok st.routes
  | fuel + 1, st =>
    match st.queue with
    | [] => .ok st.routes
    | node :: rest =>
      if max_hops ≤ node.path.length then
        bfsLoop store end_denom max_hops fuel { st with queue := rest }
      else
        match processPools store end_denom node
            (find_pools_with_denom store node.denom) { st with queue := rest } with
        | .error e => .error e
        | .ok st2 => bfsLoop store end_denom max_hops fuel st2

/-- Fuel that drains the queue: the branching factor of one expansion is at
most the total number of denom entries over the discovery range. -/
def bfsFuel (store : RouterStore) (max_hops : Nat) : Nat :=
  let branching :=
    ((rangeIds store.protocol_config.routing.pool_discovery_range).filterMap
      store.pools).foldl (fun acc p => acc + p.token_denoms.length) 0
  (branching + 1) ^ (max_hops + 1)

/-- Stable insertion into a descending-by-`amount` list: `x` goes in front
of the first strictly smaller element, matching the stable
`sort_by(|a, b| b.amount.cmp(&a.amount))` of the source. -/
def insertDesc (x : RouteNode) : List RouteNode → List RouteNode
  | [] => [x]
  | y :: ys => if y.amount < x.amount then x :: y :: ys else y :: insertDesc x ys

def sortByAmountDesc : List RouteNode → List RouteNode
  | [] => []
  | x :: xs => insertDesc x (sortByAmountDesc xs)

/-- routing.rs `find_best_routes`. -/
def find_best_routes (store : RouterStore) (start_denom end_denom : String)
    (amount_in : Nat) (max_hops : Option Nat) : Except String (List RouteNode) :=
  let mh := min (max_hops.getD store.protocol_config.routing.max_hops)
    store.protocol_config.routing.max_hops
  let start_node : RouteNode :=
    { denom := start_denom, amount := amount_in, path := [], total_fee := 0 }
  match bfsLoop store end_denom mh (bfsFuel store mh)
      { queue := [start_node], visited := [start_denom], routes := [] } with
  | .error e => .error e
  | .ok all_routes => .ok ((sortByAmountDesc all_routes).take 5)

end Router

namespace Router

/-! ### Packet instruction structures

The source carries instructions between contracts as JSON strings inside
the packet `memo` field; the model keeps them as structured values and
abstracts the (de)serialization.  contract.rs `build_hop_memo` uses its own
local `HopMemo`/`SwapInstruction`/`ForwardInstruction` structs (with
`min_output` rendered as a string), while ibc.rs parses the schema of
msg.rs `SwapInstruction`/`ForwardInstruction`; both are mirrored. -/

/-- The `SwapInstruction` struct local to contract.rs `build_hop_memo`. -/
structure MemoSwap where
  pool_id : Nat
  token_out_denom : String
  min_output : Option String
deriving DecidableEq, Repr

mutual
inductive HopMemo where
  | mk (swap : MemoSwap) (forward : Option MemoForward)

inductive MemoForward where
  | mk (port channel receiver : String) (timeout retries : Nat) (next : Option HopMemo)
end

def HopMemo.swap : HopMemo → MemoSwap
  | .mk s _ => s

def HopMemo.forward : HopMemo → Option MemoForward
  | .mk _ f => f

def MemoForward.port : MemoForward → String
  | .mk p _ _ _ _ _ => p

def MemoForward.channel : MemoForward → String
  | .mk _ c _ _ _ _ => c

def MemoForward.receiver : MemoForward → String
  | .mk _ _ r _ _ _ => r

def MemoForward.timeout : MemoForward → Nat
  | .mk _ _ _ t _ _ => t

def MemoForward.next : MemoForward → Option HopMemo
  | .mk _ _ _ _ _ n => n

/-- The number of swap instructions chained through `forward.next` links,
counting the instruction itself: the nesting depth of a memo. -/
def memoDepth : HopMemo → Nat
  | .mk _ none => 1
  | .mk _ (some (.mk _ _ _ _ _ none)) => 1
  | .mk _ (some (.mk _ _ _ _ _ (some m))) => 1 + memoDepth m

/-! msg.rs `SwapInstruction` / `ForwardInstruction`, the schema parsed by
ibc.rs from the packet memo. -/
mutual
inductive SwapInstruction where
  | mk (pool_id : Nat) (token_out_denom : String) (min_output : Option Nat)
      (forward : Option ForwardInstruction)

inductive ForwardInstruction where
  | mk (port channel receiver : String) (timeout retries : Nat)
      (next : Option SwapInstruction)
end

def SwapInstruction.pool_id : SwapInstruction → Nat
  | .mk p _ _ _ => p

def SwapInstruction.token_out_denom : SwapInstruction → String
  | .mk _ t _ _ => t

def SwapInstruction.min_output : SwapInstruction → Option Nat
  | .mk _ _ m _ => m

def SwapInstruction.forward : SwapInstruction → Option ForwardInstruction
  | .mk _ _ _ f => f

def ForwardInstruction.channel : ForwardInstruction → String
  | .mk _ c _ _ _ _ => c

def ForwardInstruction.receiver : ForwardInstruction → String
  | .mk _ _ r _ _ _ => r

def ForwardInstruction.timeout : ForwardInstruction → Nat
  | .mk _ _ _ t _ _ => t

def ForwardInstruction.next : ForwardInstruction → Option SwapInstruction
  | .mk _ _ _ _ _ n => n

/-- msg.rs `IbcPacketData` as parsed by the receive handler; the source
`memo: Option<String>` holds a JSON `SwapInstruction`. -/
structure IbcPacketData where
  sender : String
  receiver : String
  denom : String
  amount : Nat
  memo : Option SwapInstruction

/-- A packet built by `build_multi_hop_messages`, whose memo string holds a
JSON `HopMemo`. -/
structure HopPacketData where
  sender : String
  receiver : String
  denom : String
  amount : Nat
  memo : Option HopMemo

/-- The messages emitted by the router: the placeholder bank send of
`create_osmosis_swap_msg` and `IbcMsg::SendPacket` (with either memo
schema; timeouts are timestamps in seconds). -/
inductive RCosmosMsg where
  | bankSend (to_address : String) (amount : List Coin)
  | sendPacket (channel_id : String) (data : IbcPacketData) (timeout_seconds : Nat)
  | sendPacketHop (channel_id : String) (data : HopPacketData) (timeout_seconds : Nat)

/-- constants.rs `IBC_TIMEOUT_BUFFER`. -/
def IBC_TIMEOUT_BUFFER : Nat := 300

/-- contract.rs `get_router_address`: try the chain-registry contract when
configured, falling back to the local `ROUTER_REGISTRY`. -/
def get_router_address (store : RouterStore) (chain_id : String) : Except String String :=
  let fallback : Except String String :=
    match store.routers chain_id with
    | some a => .ok a
    | none => .error ("No router registered for chain: " ++ chain_id)
  match store.registry_contract with
  | some _ =>
    match store.registry_router chain_id with
    | .ok addr => .ok addr
    | .error _ => fallback
  | none => fallback

/-- contract.rs `build_hop_memo`.  Note the source builds
`next: None // Simplified for now to avoid recursion complexity`. -/
def build_hop_memo (store : RouterStore) (hop : HopRoute) (is_final : Bool)
    (min_output : Nat) (remaining_hops : List HopRoute) :
    Except String HopMemo :=
  let swap : MemoSwap :=
    { pool_id := hop.pool_id, token_out_denom := hop.token_out_denom,
      min_output := if is_final then some (toString min_output) else none }
  match is_final, remaining_hops with
  | false, next_hop :: _ =>
    match store.chain_configs next_hop.chain_id with
    | none => .error "Next chain config not found"
    | some next_chain_config =>
      match get_router_address store next_hop.chain_id with
      | .error e => .error e
      | .ok receiver =>
        .ok (.mk swap (some (.mk "transfer" next_chain_config.ibc_channel receiver
          IBC_TIMEOUT_BUFFER 0 none)))
  | _, _ => .ok (.mk swap none)

/-- contract.rs `build_multi_hop_messages`, written as recursion over the
remaining hops: at index `i` the source tests `i == routes.len() - 1` and
passes `&routes[i + 1..]`, which is `rest = []` resp. `rest` here.  The
source builds the memo twice into `_memo` and `memo` (a pure duplication,
modelled once). -/
def build_multi_hop_loop (store : RouterStore) (sender : String)
    (ibc_timeout : Nat) (min_output : Nat) :
    List HopRoute → Nat → String → Except String (List RCosmosMsg)
  | [], _, _ => .ok []
  | hop :: rest, current_amount, current_denom =>
    match store.chain_configs hop.chain_id with
    | none => .error "chain config not found"
    | some chain_config =>
      match build_hop_memo store hop rest.isEmpty min_output rest with
      | .error e => .error e
      | .ok memo =>
        match (if rest.isEmpty then Except.ok sender
               else get_router_address store hop.chain_id) with
        | .error e => .error e
        | .ok receiver =>
          let packet_data : HopPacketData :=
            { sender := sender, receiver := receiver, denom := current_denom,
              amount := current_amount, memo := some memo }
          let msg := RCosmosMsg.sendPacketHop chain_config.ibc_channel packet_data
            ibc_timeout
          match rest with
          | [] => .ok [msg]
          | _ :: _ =>
            match store.pools hop.pool_id with
            | none => .error "pool not found"
            | some pool_info =>
              match calculate_swap_output pool_info current_denom
                  hop.token_out_denom current_amount with
              | .error e => .error e
              | .ok (output_amount, _) =>
                match build_multi_hop_loop store sender ibc_timeout min_output rest
                    output_amount hop.token_out_denom with
                | .error e => .error e
                | .ok msgs => .ok (msg :: msgs)

def build_multi_hop_messages (store : RouterStore) (info_sender : String)
    (funds_denom : String) (routes : List HopRoute)
    (amount_in min_output timeout_timestamp : Nat) :
    Except String (List RCosmosMsg) :=
  build_multi_hop_loop store info_sender (timeout_timestamp - IBC_TIMEOUT_BUFFER)
    min_output routes amount_in funds_denom

/-! ### IBC layer (router/src/ibc.rs) -/

inductive IbcOrder where
  | Unordered
  | Ordered
deriving DecidableEq, Repr

structure IbcEndpoint where
  port_id : String
  channel_id : String
deriving DecidableEq, Repr

structure IbcChannel where
  endpoint : IbcEndpoint
  counterparty_endpoint : IbcEndpoint
  order : IbcOrder
  version : String
  connection_id : String
deriving DecidableEq, Repr

/-- router/src/error.rs `ContractError` (the variants the IBC layer uses). -/
inductive RouterError where
  | Std (msg : String)
  | InvalidIbcChannelOrder (expected actual : IbcOrder)
  | InvalidIbcVersion (expected actual : String)
deriving DecidableEq, Repr

def IBC_VERSION : String := "fusion-router-v1"

/-- ibc.rs `validate_order_and_version`. -/
def validate_order_and_version (channel : IbcChannel)
    (counterparty_version : Option String) : Except RouterError Unit :=
  if channel.order ≠ .Unordered then
    .error (.InvalidIbcChannelOrder .Unordered channel.order)
  else
    match counterparty_version with
    | some version =>
      if version ≠ IBC_VERSION then .error (.InvalidIbcVersion IBC_VERSION version)
      else .ok ()
    | none => .ok ()

/-- `cosmwasm_std::IbcChannelOpenMsg`: `OpenInit` carries no counterparty
version, `OpenTry` does. -/
inductive IbcChannelOpenMsg where
  | OpenInit (channel : IbcChannel)
  | OpenTry (channel : IbcChannel) (counterparty_version : String)

def IbcChannelOpenMsg.channel : IbcChannelOpenMsg → IbcChannel
  | .OpenInit ch => ch
  | .OpenTry ch _ => ch

def IbcChannelOpenMsg.counterparty_version : IbcChannelOpenMsg → Option String
  | .OpenInit _ => none
  | .OpenTry _ v => some v

/-- `cosmwasm_std::IbcChannelConnectMsg`: `OpenAck` carries the
counterparty version, `OpenConfirm` does not. -/
inductive IbcChannelConnectMsg where
  | OpenAck (channel : IbcChannel) (counterparty_version : String)
  | OpenConfirm (channel : IbcChannel)

def IbcChannelConnectMsg.channel : IbcChannelConnectMsg → IbcChannel
  | .OpenAck ch _ => ch
  | .OpenConfirm ch => ch

def IbcChannelConnectMsg.counterparty_version : IbcChannelConnectMsg → Option String
  | .OpenAck _ v => some v
  | .OpenConfirm _ => none

/-- ibc.rs `ibc_channel_open`: validate, then answer with our version. -/
def ibc_channel_open (msg : IbcChannelOpenMsg) : Except RouterError (Option String) :=
  match validate_order_and_version msg.channel msg.counterparty_version with
  | .error e => .error e
  | .ok _ => .ok (some IBC_VERSION)

/-- ibc.rs `ibc_channel_connect`: validate, then append the channel to the
stored `IBC_CHANNELS` list. -/
def ibc_channel_connect (channels : List IbcChannel) (msg : IbcChannelConnectMsg) :
    Except RouterError (List IbcChannel) :=
  match validate_order_and_version msg.channel msg.counterparty_version with
  | .error e => .error e
  | .ok _ => .ok (channels ++ [msg.channel])

structure AckData where
  success : Bool
deriving DecidableEq, Repr

structure IbcReceiveResponse where
  messages : List RCosmosMsg
  ack : Option AckData

/-- ibc.rs `create_osmosis_swap_msg`: a placeholder bank send of the
expected output (`min_output`, defaulting to the input amount) to the
packet receiver; no real pool is consulted. -/
def create_osmosis_swap_msg (sender : String) (_token_in_denom : String)
    (token_in_amount : Nat) (_pool_id : Nat) (token_out_denom : String)
    (min_output : Option Nat) : RCosmosMsg :=
  .bankSend sender [{ denom := token_out_denom, amount := min_output.getD token_in_amount }]

/-- ibc.rs `create_forward_msg`: an `IbcMsg::SendPacket` over
`forward.channel` whose payload forwards to `forward.receiver` with memo
`forward.next`, timing out `forward.timeout` seconds from now. -/
def create_forward_msg (block_time : Nat) (sender denom : String) (amount : Nat)
    (forward : ForwardInstruction) : RCosmosMsg :=
  let packet_data : IbcPacketData :=
    { sender := sender, receiver := forward.receiver, denom := denom,
      amount := amount, memo := forward.next }
  .sendPacket forward.channel packet_data (block_time + forward.timeout)

/-- ibc.rs `process_ibc_swap`.  When the memo carries a swap instruction,
the local swap message is emitted; when it also carries a forward, the next
packet is emitted — the source passes `packet_data.amount` there, with the
comment "This would be the swap output amount". -/
def process_ibc_swap (block_time : Nat) (packet_data : IbcPacketData) :
    IbcReceiveResponse :=
  let msgs : List RCosmosMsg :=
    match packet_data.memo with
    | none => []
    | some swap_data =>
      let swap_msg := create_osmosis_swap_msg packet_data.receiver packet_data.denom
        packet_data.amount swap_data.pool_id swap_data.token_out_denom
        swap_data.min_output
      match swap_data.forward with
      | none => [swap_msg]
      | some forward =>
        [swap_msg,
         create_forward_msg block_time packet_data.receiver
           swap_data.token_out_denom packet_data.amount forward]
  { messages := msgs, ack := some { success := true } }

end Router

/-! ## Storage lemmas -/

theorem loadKV_saveKV_self {α : Type} (l : List (Nat × α)) (k : Nat) (v : α) :
    loadKV (saveKV l k v) k = some v := by
  induction l with
  | nil => simp [saveKV, loadKV]
  | cons hd tl ih =>
    obtain ⟨k', v'⟩ := hd
    by_cases hk : k' = k <;> simp [saveKV, loadKV, hk, ih]

theorem loadKV_saveKV_ne {α : Type} (l : List (Nat × α)) {k k' : Nat} (v : α)
    (h : k' ≠ k) : loadKV (saveKV l k v) k' = loadKV l k' := by
  induction l with
  | nil => simp [saveKV, loadKV, h, Ne.symm h]
  | cons hd tl ih =>
    obtain ⟨k0, v0⟩ := hd
    by_cases hk : k0 = k
    · subst hk
      simp [saveKV, loadKV, h, Ne.symm h]
    · by_cases hk' : k0 = k' <;> simp [saveKV, loadKV, hk, hk', ih, h, Ne.symm h]

open Vault in
/-- C2.  For a commitment that is neither withdrawn nor refunded and a
hex-decodable secret, `withdraw` succeeds iff the hex-encoded SHA-256 hash
of the decoded secret equals the stored hashlock; a mismatch fails with
`InvalidSecret`, and a match marks the commitment withdrawn and transfers
the full locked amount to the stored receiver. -/
theorem withdraw_hashlock_soundness
    (s : VaultState) (env : Env) (info : MessageInfo) (htlc_id : Nat)
    (secret : String) (h : Htlc) (secret_bytes : List Nat)
    (hload : loadKV s.htlcs htlc_id = some h)
    (hw : h.withdrawn = false) (hr : h.refunded = false)
    (hdec : hexDecode secret = some secret_bytes) :
    ((∃ out, withdraw s env info htlc_id secret = .ok out) ↔
       hexEncode (sha256 secret_bytes) = h.hashlock) ∧
    (hexEncode (sha256 secret_bytes) ≠ h.hashlock →
       withdraw s env info htlc_id secret = .error .InvalidSecret) ∧
    (hexEncode (sha256 secret_bytes) = h.hashlock →
       withdraw s env info htlc_id secret =
         .ok ({ s with htlcs := saveKV s.htlcs htlc_id { h with withdrawn := true } },
              { messages := [.bankSend h.receiver h.amount] })) := by
  by_cases hh : hexEncode (sha256 secret_bytes) = h.hashlock
  · refine ⟨?_, fun hcon => absurd hh hcon, fun _ => ?_⟩
    · simp [withdraw, hload, hw, hr, hdec, hh]
    · simp [withdraw, hload, hw, hr, hdec, hh]
  · refine ⟨?_, fun _ => ?_, fun hcon => absurd hcon hh⟩
    · simp [withdraw, hload, hw, hr, hdec, hh]
    · simp [withdraw, hload, hw, hr, hdec, hh]

/-! ## Concrete fixtures used by witnesses and counterexamples -/

def exEnv : Vault.Env :=
  { block_time := 100, contract_address := "contract",
    swap_estimate := fun _ _ => .error "querier unavailable" }

def exInfo : Vault.MessageInfo :=
  { sender := "sender", funds := [⟨"uatom", 100⟩] }

/-- Hex SHA-256 digest of the three bytes 0x61 0x62 0x63 (the string abc). -/
def exAbcDigest : String :=
  "ba7816bf8f01cfea414140de5dae2223b00361a396177a9cb410ff61f20015ad"

def exHtlc : Vault.Htlc :=
  { sender := "sender", receiver := "receiver", amount := [⟨"uatom", 100⟩],
    hashlock := exAbcDigest, timelock := 3700, withdrawn := false, refunded := false,
    target_chain := "cosmoshub-4", target_address := "cosmos1abc",
    swap_params := none, swap_executed := false }

def exState : Vault.VaultState :=
  { config := { admin := "admin", protocol_config := ProtocolConfig.default },
    htlcs := [(0, exHtlc)], count := 1 }

theorem withdraw_hashlock_soundness_witness :
    Vault.withdraw exState exEnv exInfo 0 "616263" =
      .ok ({ exState with htlcs := saveKV exState.htlcs 0 { exHtlc with withdrawn := true } },
           { messages := [.bankSend "receiver" [⟨"uatom", 100⟩]] }) :=
  (withdraw_hashlock_soundness exState exEnv exInfo 0 "616263" exHtlc
    [0x61, 0x62, 0x63] rfl rfl rfl rfl).2.2 (by decide)

open Vault in
/-- C10.  `execute_swap_and_lock` never consults `withdrawn` or `refunded`:
for any stored commitment with `swap_executed = false`, a call by the
commitment's sender or the admin with valid swap parameters succeeds, sets
`swap_executed`, stores the parameters, and emits the swap message for the
locked funds — the terminal flags are unconstrained here, so the result is
the same even on an already-withdrawn or already-refunded commitment. -/
theorem execute_swap_and_lock_ignores_terminal_flags
    (s : VaultState) (env : Env) (info : MessageInfo) (htlc_id : Nat)
    (params : SwapParams) (h : Htlc) (token_in : Coin) (restAmt : List Coin)
    (hload : loadKV s.htlcs htlc_id = some h)
    (hauth : info.sender = h.sender ∨ info.sender = s.config.admin)
    (hexec : h.swap_executed = false)
    (hamt : h.amount = token_in :: restAmt)
    (hval : validate_swap_params params = .ok ()) :
    execute_swap_and_lock s env info htlc_id params =
      .ok ({ s with htlcs := saveKV s.htlcs htlc_id
                        ({ h with swap_executed := true, swap_params := some params }) },
           { messages := [.swapExactAmountIn env.contract_address params.routes
               token_in params.min_output_amount] }) := by
  have hauth' : ¬(info.sender ≠ h.sender ∧ info.sender ≠ s.config.admin) := by tauto
  simp [execute_swap_and_lock, hload, hauth', hexec, hamt, hval, build_osmosis_swap_msg]

/-- A commitment that has already been withdrawn, with a pending swap. -/
def exHtlcWithdrawn : Vault.Htlc := { exHtlc with withdrawn := true }

def exStateWithdrawn : Vault.VaultState :=
  { config := { admin := "admin", protocol_config := ProtocolConfig.default },
    htlcs := [(0, exHtlcWithdrawn)], count := 1 }

def exParams : Vault.SwapParams :=
  { routes := [⟨1, "uosmo"⟩], min_output_amount := 90,
    slippage_tolerance := decPercent 1 }

theorem execute_swap_and_lock_ignores_terminal_flags_witness :
    exHtlcWithdrawn.withdrawn = true ∧
    Vault.execute_swap_and_lock exStateWithdrawn exEnv exInfo 0 exParams =
      .ok ({ exStateWithdrawn with
             htlcs := saveKV exStateWithdrawn.htlcs 0
               ({ exHtlcWithdrawn with swap_executed := true, swap_params := some exParams }) },
           { messages := [.swapExactAmountIn "contract" [⟨1, "uosmo"⟩]
               ⟨"uatom", 100⟩ 90] }) :=
  ⟨rfl,
   execute_swap_and_lock_ignores_terminal_flags exStateWithdrawn exEnv exInfo 0 exParams
     exHtlcWithdrawn ⟨"uatom", 100⟩ [] rfl (Or.inl rfl) rfl rfl rfl⟩

open Vault in
/-- C4.  With otherwise valid arguments, `create_htlc` rejects
`timelock ≤ now` and `timelock > now + maxDuration` with `InvalidTimelock`
(`maxDuration` read from the stored protocol configuration) and succeeds at
`timelock = now + maxDuration` exactly.  The success case assumes
`maxDuration > 0`, which holds in every reachable state: the HTLC contract
only ever stores `ProtocolConfig::default()` (`max_duration = 172800`) and
has no configuration-update entry point. -/
theorem create_timelock_bounds
    (s : VaultState) (env : Env) (info : MessageInfo)
    (receiver hashlock target_chain target_address : String) (timelock : Nat)
    (hfunds : info.funds.isEmpty = false)
    (htc : target_chain.isEmpty = false) (hta : target_address.isEmpty = false)
    (hlen : hashlock.length = Vault.HASHLOCK_LENGTH)
    (hhex : (hexDecode hashlock).isNone = false) :
    (timelock ≤ env.block_time →
      create_htlc s env info receiver hashlock timelock target_chain target_address =
        .error .InvalidTimelock) ∧
    (env.block_time + s.config.protocol_config.get_max_timelock_duration < timelock →
      create_htlc s env info receiver hashlock timelock target_chain target_address =
        .error .InvalidTimelock) ∧
    (0 < s.config.protocol_config.get_max_timelock_duration →
      timelock = env.block_time + s.config.protocol_config.get_max_timelock_duration →
      ∃ out, create_htlc s env info receiver hashlock timelock target_chain
        target_address = .ok out) := by
  refine ⟨fun hle => ?_, fun hgt => ?_, fun hpos heq => ?_⟩
  · simp [create_htlc, hfunds, hle]
  · have hnle : ¬timelock ≤ env.block_time := by omega
    simp [create_htlc, hfunds, hnle, hgt]
  · have hnle : ¬timelock ≤ env.block_time := by omega
    have hngt : ¬env.block_time + s.config.protocol_config.get_max_timelock_duration
        < timelock := by omega
    refine ⟨({ s with
               htlcs := saveKV s.htlcs s.count
                 ({ sender := info.sender, receiver := receiver, amount := info.funds,
                    hashlock := hashlock, timelock := timelock, withdrawn := false,
                    refunded := false, target_chain := target_chain,
                    target_address := target_address, swap_params := none,
                    swap_executed := false }),
               count := s.count + 1 },
             { messages := [] }), ?_⟩
    simp [create_htlc, hfunds, hnle, hngt, htc, hta, hlen, hhex]

/-- A valid hashlock string: 64 hex characters. -/
def exZeroHashlock : String :=
  "0000000000000000000000000000000000000000000000000000000000000000"

theorem create_timelock_bounds_witness :
    (Vault.create_htlc exState exEnv exInfo "receiver" exZeroHashlock 100
       "cosmoshub-4" "cosmos1abc" = .error .InvalidTimelock) ∧
    (Vault.create_htlc exState exEnv exInfo "receiver" exZeroHashlock 172901
       "cosmoshub-4" "cosmos1abc" = .error .InvalidTimelock) ∧
    (∃ out, Vault.create_htlc exState exEnv exInfo "receiver" exZeroHashlock 172900
       "cosmoshub-4" "cosmos1abc" = .ok out) :=
  ⟨(create_timelock_bounds exState exEnv exInfo "receiver" exZeroHashlock
      "cosmoshub-4" "cosmos1abc" 100 rfl rfl rfl rfl rfl).1 (by decide),
   (create_timelock_bounds exState exEnv exInfo "receiver" exZeroHashlock
      "cosmoshub-4" "cosmos1abc" 172901 rfl rfl rfl rfl rfl).2.1 (by decide),
   (create_timelock_bounds exState exEnv exInfo "receiver" exZeroHashlock
      "cosmoshub-4" "cosmos1abc" 172900 rfl rfl rfl rfl rfl).2.2 (by decide) (by decide)⟩

/-- Inversion of a successful `withdraw`: the commitment existed with both
terminal flags clear, and the committed state marks it withdrawn. -/
theorem withdraw_ok_state {s : Vault.VaultState} {env : Vault.Env}
    {info : Vault.MessageInfo} {htlc_id : Nat} {secret : String}
    {s' : Vault.VaultState} {r : Vault.Response}
    (h : Vault.withdraw s env info htlc_id secret = .ok (s', r)) :
    ∃ htlc : Vault.Htlc, loadKV s.htlcs htlc_id = some htlc ∧
      htlc.withdrawn = false ∧ htlc.refunded = false ∧
      s' = { s with htlcs := saveKV s.htlcs htlc_id ({ htlc with withdrawn := true }) } := by
  unfold Vault.withdraw at h
  split at h
  · simp at h
  · rename_i htlc heq
    split at h
    · simp at h
    · split at h
      · simp at h
      · split at h
        · simp at h
        · split at h
          · simp at h
          · simp only [Except.ok.injEq, Prod.mk.injEq] at h
            refine ⟨htlc, heq, ?_, ?_, h.1.symm⟩ <;> simp_all

/-- Inversion of a successful `refund`: the commitment existed with both
terminal flags clear, and the committed state marks it refunded. -/
theorem refund_ok_state {s : Vault.VaultState} {env : Vault.Env}
    {info : Vault.MessageInfo} {htlc_id : Nat}
    {s' : Vault.VaultState} {r : Vault.Response}
    (h : Vault.refund s env info htlc_id = .ok (s', r)) :
    ∃ htlc : Vault.Htlc, loadKV s.htlcs htlc_id = some htlc ∧
      htlc.withdrawn = false ∧ htlc.refunded = false ∧
      s' = { s with htlcs := saveKV s.htlcs htlc_id ({ htlc with refunded := true }) } := by
  unfold Vault.refund at h
  split at h
  · simp at h
  · rename_i htlc heq
    split at h
    · simp at h
    · split at h
      · simp at h
      · split at h
        · simp at h
        · split at h
          · simp at h
          · simp only [Except.ok.injEq, Prod.mk.injEq] at h
            refine ⟨htlc, heq, ?_, ?_, h.1.symm⟩ <;> simp_all

open Vault in
/-- C3.  A second `withdraw` after a successful `withdraw` fails with
`AlreadyWithdrawn`, a second `refund` after a successful `refund` fails
with `AlreadyRefunded`, and in both cases the failed call commits nothing:
under the transaction boundary the state after the failed call is exactly
the state after the first call. -/
theorem withdraw_refund_idempotence
    (s : VaultState) (env1 env2 : Env) (info1 info2 : MessageInfo)
    (htlc_id : Nat) (secret secret2 : String) :
    (∀ s1 r1, withdraw s env1 info1 htlc_id secret = .ok (s1, r1) →
       withdraw s1 env2 info2 htlc_id secret2 = .error .AlreadyWithdrawn ∧
       applyExecute s1 env2 info2 (.Withdraw htlc_id secret2) = s1) ∧
    (∀ s1 r1, refund s env1 info1 htlc_id = .ok (s1, r1) →
       refund s1 env2 info2 htlc_id = .error .AlreadyRefunded ∧
       applyExecute s1 env2 info2 (.Refund htlc_id) = s1) := by
  constructor
  · intro s1 r1 hok
    obtain ⟨htlc, -, -, -, hs1⟩ := withdraw_ok_state hok
    have hload1 : loadKV s1.htlcs htlc_id = some ({ htlc with withdrawn := true }) := by
      rw [hs1]; exact loadKV_saveKV_self _ _ _
    have herr : withdraw s1 env2 info2 htlc_id secret2 = .error .AlreadyWithdrawn := by
      simp [withdraw, hload1]
    exact ⟨herr, by simp [applyExecute, execute, herr]⟩
  · intro s1 r1 hok
    obtain ⟨htlc, -, hw, -, hs1⟩ := refund_ok_state hok
    have hload1 : loadKV s1.htlcs htlc_id = some ({ htlc with refunded := true }) := by
      rw [hs1]; exact loadKV_saveKV_self _ _ _
    have herr : refund s1 env2 info2 htlc_id = .error .AlreadyRefunded := by
      simp [refund, hload1, hw]
    exact ⟨herr, by simp [applyExecute, execute, herr]⟩

/-- An environment past the example timelock, for the refund leg. -/
def exEnvLate : Vault.Env := { exEnv with block_time := 4000 }

/-- The example state after a successful withdraw of commitment 0. -/
def exStateAfterW : Vault.VaultState :=
  { exState with htlcs := saveKV exState.htlcs 0 ({ exHtlc with withdrawn := true }) }

/-- The example state after a successful refund of commitment 0. -/
def exStateAfterR : Vault.VaultState :=
  { exState with htlcs := saveKV exState.htlcs 0 ({ exHtlc with refunded := true }) }

theorem withdraw_refund_idempotence_witness :
    (Vault.withdraw exStateAfterW exEnvLate exInfo 0 "616263" =
       .error .AlreadyWithdrawn) ∧
    (Vault.refund exStateAfterR exEnvLate exInfo 0 =
       .error .AlreadyRefunded) :=
  ⟨((withdraw_refund_idempotence exState exEnv exEnvLate exInfo exInfo 0
       "616263" "616263").1 exStateAfterW
       { messages := [.bankSend "receiver" [⟨"uatom", 100⟩]] } rfl).1,
   ((withdraw_refund_idempotence exState exEnvLate exEnvLate exInfo exInfo 0
       "616263" "616263").2 exStateAfterR
       { messages := [.bankSend "sender" [⟨"uatom", 100⟩]] } rfl).1⟩

theorem loadKV_saveKV_cases {α : Type} {l : List (Nat × α)} {k k' : Nat} {v h' : α}
    (h : loadKV (saveKV l k v) k' = some h') :
    (k' = k ∧ h' = v) ∨ (k' ≠ k ∧ loadKV l k' = some h') := by
  by_cases e : k' = k
  · subst e
    rw [loadKV_saveKV_self] at h
    exact Or.inl ⟨rfl, (Option.some.inj h).symm⟩
  · exact Or.inr ⟨e, by rwa [loadKV_saveKV_ne _ _ e] at h⟩

/-- How one committed vault operation changes the commitment store: a fresh
commitment with clear flags, a withdraw mark, a refund mark, or a swap
mark.  Every successful `execute` call has one of these shapes. -/
inductive StepShape (s s' : Vault.VaultState) : Prop where
  | created (h : Vault.Htlc) (hw : h.withdrawn = false) (hr : h.refunded = false)
      (hh : s'.htlcs = saveKV s.htlcs s.count h) (hc : s'.count = s.count + 1)
  | withdrew (k : Nat) (h : Vault.Htlc) (hload : loadKV s.htlcs k = some h)
      (hw : h.withdrawn = false) (hr : h.refunded = false)
      (hh : s'.htlcs = saveKV s.htlcs k ({ h with withdrawn := true }))
      (hc : s'.count = s.count)
  | refunded (k : Nat) (h : Vault.Htlc) (hload : loadKV s.htlcs k = some h)
      (hw : h.withdrawn = false) (hr : h.refunded = false)
      (hh : s'.htlcs = saveKV s.htlcs k ({ h with refunded := true }))
      (hc : s'.count = s.count)
  | swapped (k : Nat) (h : Vault.Htlc) (p : Vault.SwapParams)
      (hload : loadKV s.htlcs k = some h)
      (hh : s'.htlcs = saveKV s.htlcs k
        ({ h with swap_executed := true, swap_params := some p }))
      (hc : s'.count = s.count)

theorem create_htlc_ok_state {s : Vault.VaultState} {env : Vault.Env}
    {info : Vault.MessageInfo} {receiver hashlock : String} {timelock : Nat}
    {target_chain target_address : String}
    {s' : Vault.VaultState} {r : Vault.Response}
    (h : Vault.create_htlc s env info receiver hashlock timelock target_chain
      target_address = .ok (s', r)) :
    ∃ htlc : Vault.Htlc, htlc.withdrawn = false ∧ htlc.refunded = false ∧
      s'.htlcs = saveKV s.htlcs s.count htlc ∧ s'.count = s.count + 1 := by
  unfold Vault.create_htlc at h
  split at h
  · simp at h
  split at h
  · simp at h
  split at h
  · simp at h
  split at h
  · simp at h
  split at h
  · simp at h
  split at h
  · simp at h
  simp only [Except.ok.injEq, Prod.mk.injEq] at h
  exact ⟨_, rfl, rfl, by rw [← h.1], by rw [← h.1]⟩

theorem create_htlc_with_swap_ok_state {s : Vault.VaultState} {env : Vault.Env}
    {info : Vault.MessageInfo} {receiver hashlock : String} {timelock : Nat}
    {target_chain target_address : String} {swap_params : Vault.SwapParams}
    {s' : Vault.VaultState} {r : Vault.Response}
    (h : Vault.create_htlc_with_swap s env info receiver hashlock timelock
      target_chain target_address swap_params = .ok (s', r)) :
    ∃ htlc : Vault.Htlc, htlc.withdrawn = false ∧ htlc.refunded = false ∧
      s'.htlcs = saveKV s.htlcs s.count htlc ∧ s'.count = s.count + 1 := by
  unfold Vault.create_htlc_with_swap at h
  split at h
  · simp at h
  split at h
  · simp at h
  split at h
  · simp at h
  split at h
  · simp at h
  split at h
  · simp at h
  split at h
  · simp at h
  split at h
  · simp at h
  split at h
  · simp at h
  split at h
  · simp at h
  split at h
  · simp at h
  simp only [Except.ok.injEq, Prod.mk.injEq] at h
  exact ⟨_, rfl, rfl, by rw [← h.1], by rw [← h.1]⟩

theorem execute_swap_and_lock_ok_state {s : Vault.VaultState} {env : Vault.Env}
    {info : Vault.MessageInfo} {htlc_id : Nat} {swap_params : Vault.SwapParams}
    {s' : Vault.VaultState} {r : Vault.Response}
    (h : Vault.execute_swap_and_lock s env info htlc_id swap_params = .ok (s', r)) :
    ∃ htlc : Vault.Htlc, loadKV s.htlcs htlc_id = some htlc ∧
      s'.htlcs = saveKV s.htlcs htlc_id
        ({ htlc with swap_executed := true, swap_params := some swap_params }) ∧
      s'.count = s.count := by
  unfold Vault.execute_swap_and_lock at h
  split at h
  · simp at h
  · rename_i htlc heq
    split at h
    · simp at h
    split at h
    · simp at h
    split at h
    · simp at h
    split at h
    · simp at h
    simp only [Except.ok.injEq, Prod.mk.injEq] at h
    exact ⟨htlc, heq, by rw [← h.1], by rw [← h.1]⟩

theorem execute_ok_shape {s s' : Vault.VaultState} {env : Vault.Env}
    {info : Vault.MessageInfo} {msg : Vault.ExecuteMsg} {resp : Vault.Response}
    (h : Vault.execute s env info msg = .ok (s', resp)) : StepShape s s' := by
  cases msg with
  | CreateHtlc receiver hashlock timelock target_chain target_address =>
    have h2 : Vault.create_htlc s env info receiver hashlock timelock target_chain
        target_address = .ok (s', resp) := h
    obtain ⟨htlc, hw, hr, hh, hc⟩ := create_htlc_ok_state h2
    exact .created htlc hw hr hh hc
  | Withdraw htlc_id secret =>
    have h2 : Vault.withdraw s env info htlc_id secret = .ok (s', resp) := h
    obtain ⟨htlc, hload, hw, hr, hs1⟩ := withdraw_ok_state h2
    exact .withdrew htlc_id htlc hload hw hr (by rw [hs1]) (by rw [hs1])
  | Refund htlc_id =>
    have h2 : Vault.refund s env info htlc_id = .ok (s', resp) := h
    obtain ⟨htlc, hload, hw, hr, hs1⟩ := refund_ok_state h2
    exact .refunded htlc_id htlc hload hw hr (by rw [hs1]) (by rw [hs1])
  | CreateHtlcWithSwap receiver hashlock timelock target_chain target_address swap_params =>
    have h2 : Vault.create_htlc_with_swap s env info receiver hashlock timelock
        target_chain target_address swap_params = .ok (s', resp) := h
    obtain ⟨htlc, hw, hr, hh, hc⟩ := create_htlc_with_swap_ok_state h2
    exact .created htlc hw hr hh hc
  | ExecuteSwapAndLock htlc_id swap_params =>
    have h2 : Vault.execute_swap_and_lock s env info htlc_id swap_params = .ok (s', resp) := h
    obtain ⟨htlc, hload, hh, hc⟩ := execute_swap_and_lock_ok_state h2
    exact .swapped htlc_id htlc swap_params hload hh hc

/-- Every stored key is below the counter (so the next assigned id is
fresh). -/
def KeyInv (s : Vault.VaultState) : Prop :=
  ∀ k h, loadKV s.htlcs k = some h → k < s.count

/-- No stored commitment has both terminal flags set. -/
def FlagInv (s : Vault.VaultState) : Prop :=
  ∀ (k : Nat) (h : Vault.Htlc), loadKV s.htlcs k = some h →
    ¬(h.withdrawn = true ∧ h.refunded = true)

theorem shape_KeyInv {s s' : Vault.VaultState} (hk : KeyInv s)
    (hs : StepShape s s') : KeyInv s' := by
  intro k h hl
  cases hs with
  | created h0 hw hr hh hc =>
    rw [hh] at hl
    rcases loadKV_saveKV_cases hl with ⟨he, -⟩ | ⟨-, hl2⟩
    · omega
    · have := hk _ _ hl2; omega
  | withdrew k0 h0 hload hw hr hh hc =>
    rw [hh] at hl
    rcases loadKV_saveKV_cases hl with ⟨he, -⟩ | ⟨-, hl2⟩
    · have := hk _ _ hload; omega
    · have := hk _ _ hl2; omega
  | refunded k0 h0 hload hw hr hh hc =>
    rw [hh] at hl
    rcases loadKV_saveKV_cases hl with ⟨he, -⟩ | ⟨-, hl2⟩
    · have := hk _ _ hload; omega
    · have := hk _ _ hl2; omega
  | swapped k0 h0 p hload hh hc =>
    rw [hh] at hl
    rcases loadKV_saveKV_cases hl with ⟨he, -⟩ | ⟨-, hl2⟩
    · have := hk _ _ hload; omega
    · have := hk _ _ hl2; omega

theorem shape_FlagInv {s s' : Vault.VaultState} (hf : FlagInv s)
    (hs : StepShape s s') : FlagInv s' := by
  intro k h hl
  cases hs with
  | created h0 hw hr hh hc =>
    rw [hh] at hl
    rcases loadKV_saveKV_cases hl with ⟨-, rfl⟩ | ⟨-, hl2⟩
    · simp [hw, hr]
    · exact hf _ _ hl2
  | withdrew k0 h0 hload hw hr hh hc =>
    rw [hh] at hl
    rcases loadKV_saveKV_cases hl with ⟨-, rfl⟩ | ⟨-, hl2⟩
    · simp [hr]
    · exact hf _ _ hl2
  | refunded k0 h0 hload hw hr hh hc =>
    rw [hh] at hl
    rcases loadKV_saveKV_cases hl with ⟨-, rfl⟩ | ⟨-, hl2⟩
    · simp [hw]
    · exact hf _ _ hl2
  | swapped k0 h0 p hload hh hc =>
    rw [hh] at hl
    rcases loadKV_saveKV_cases hl with ⟨-, rfl⟩ | ⟨-, hl2⟩
    · simpa using hf _ _ hload
    · exact hf _ _ hl2

theorem shape_mono {s s' : Vault.VaultState} (hk : KeyInv s) (hs : StepShape s s') :
    ∀ (k : Nat) (h h' : Vault.Htlc), loadKV s.htlcs k = some h →
      loadKV s'.htlcs k = some h' →
      (h.withdrawn = true → h'.withdrawn = true) ∧
      (h.refunded = true → h'.refunded = true) := by
  intro k h h' hl hl'
  cases hs with
  | created h0 hw hr hh hc =>
    rw [hh] at hl'
    rcases loadKV_saveKV_cases hl' with ⟨he, -⟩ | ⟨-, hl2⟩
    · have := hk _ _ hl; omega
    · rw [hl] at hl2
      cases Option.some.inj hl2
      exact ⟨id, id⟩
  | withdrew k0 h0 hload hw hr hh hc =>
    rw [hh] at hl'
    rcases loadKV_saveKV_cases hl' with ⟨he, rfl⟩ | ⟨-, hl2⟩
    · subst he
      rw [hl] at hload
      cases Option.some.inj hload
      exact ⟨fun _ => rfl, fun hx => hx⟩
    · rw [hl] at hl2
      cases Option.some.inj hl2
      exact ⟨id, id⟩
  | refunded k0 h0 hload hw hr hh hc =>
    rw [hh] at hl'
    rcases loadKV_saveKV_cases hl' with ⟨he, rfl⟩ | ⟨-, hl2⟩
    · subst he
      rw [hl] at hload
      cases Option.some.inj hload
      exact ⟨fun hx => hx, fun _ => rfl⟩
    · rw [hl] at hl2
      cases Option.some.inj hl2
      exact ⟨id, id⟩
  | swapped k0 h0 p hload hh hc =>
    rw [hh] at hl'
    rcases loadKV_saveKV_cases hl' with ⟨he, rfl⟩ | ⟨-, hl2⟩
    · subst he
      rw [hl] at hload
      cases Option.some.inj hload
      exact ⟨fun hx => hx, fun hx => hx⟩
    · rw [hl] at hl2
      cases Option.some.inj hl2
      exact ⟨id, id⟩

theorem reachable_invs {s : Vault.VaultState} (h : Vault.Reachable s) :
    KeyInv s ∧ FlagInv s := by
  induction h with
  | instantiated admin info =>
    constructor <;> intro k h hl <;> simp [Vault.instantiate, loadKV] at hl
  | step hprev hok ih =>
    have shape := execute_ok_shape hok
    exact ⟨shape_KeyInv ih.1 shape, shape_FlagInv ih.2 shape⟩

open Vault in
/-- C1.  In every reachable vault state no stored commitment has both
`withdrawn` and `refunded` set, and no committed operation (create,
withdraw, refund, executeSwapAndLock, createHtlcWithSwap) ever turns
either flag from true back to false on any commitment. -/
theorem vault_flags_mutually_exclusive_and_write_once (s : VaultState)
    (hs : Reachable s) :
    (∀ (k : Nat) (h : Htlc), loadKV s.htlcs k = some h →
       ¬(h.withdrawn = true ∧ h.refunded = true)) ∧
    (∀ env info msg s' resp, execute s env info msg = .ok (s', resp) →
       ∀ (k : Nat) (h h' : Htlc), loadKV s.htlcs k = some h →
         loadKV s'.htlcs k = some h' →
         (h.withdrawn = true → h'.withdrawn = true) ∧
         (h.refunded = true → h'.refunded = true)) := by
  obtain ⟨hk, hf⟩ := reachable_invs hs
  exact ⟨hf, fun env info msg s' resp hok =>
    shape_mono hk (execute_ok_shape hok)⟩

def exCreatedHtlc : Vault.Htlc :=
  { sender := "sender", receiver := "receiver", amount := [⟨"uatom", 100⟩],
    hashlock := exZeroHashlock, timelock := 200, withdrawn := false, refunded := false,
    target_chain := "cosmoshub-4", target_address := "cosmos1abc",
    swap_params := none, swap_executed := false }

def exState1 : Vault.VaultState :=
  { config := { admin := "admin", protocol_config := ProtocolConfig.default },
    htlcs := [(0, exCreatedHtlc)], count := 1 }

def exState2 : Vault.VaultState :=
  { config := { admin := "admin", protocol_config := ProtocolConfig.default },
    htlcs := [(0, exCreatedHtlc), (1, exCreatedHtlc)], count := 2 }

theorem vault_flags_mutually_exclusive_and_write_once_witness :
    ¬(exCreatedHtlc.withdrawn = true ∧ exCreatedHtlc.refunded = true) ∧
    ((exCreatedHtlc.withdrawn = true → exCreatedHtlc.withdrawn = true) ∧
     (exCreatedHtlc.refunded = true → exCreatedHtlc.refunded = true)) :=
  have hreach : Vault.Reachable exState1 :=
    Vault.Reachable.step
      (Vault.Reachable.instantiated (some "admin") exInfo)
      (show Vault.execute (Vault.instantiate (some "admin") exInfo) exEnv exInfo
          (.CreateHtlc "receiver" exZeroHashlock 200 "cosmoshub-4" "cosmos1abc") =
        .ok (exState1, { messages := [] }) from rfl)
  ⟨(vault_flags_mutually_exclusive_and_write_once exState1 hreach).1 0 exCreatedHtlc rfl,
   (vault_flags_mutually_exclusive_and_write_once exState1 hreach).2 exEnv exInfo
     (.CreateHtlc "receiver" exZeroHashlock 200 "cosmoshub-4" "cosmos1abc")
     exState2 { messages := [] } rfl 0 exCreatedHtlc exCreatedHtlc rfl rfl⟩

/-- Modelled from the spec: the ConstantProduct estimate
`amountOut = balanceOut × (1 − balanceIn/(balanceIn + amountInEff))` with
the fee deducted first, `amountInEff = amountIn × (1 − feeRate)`, in the
contract's fixed-point arithmetic. -/
def constantProductOut (balance_in balance_out amount_in fee_rate : Nat) : Nat :=
  let amount_in_eff := mulUintDec amount_in (decOne - fee_rate)
  mulUintDec balance_out (decOne - decFrac balance_in (balance_in + amount_in_eff))

open Router in
/-- C8.  On a `Balancer` (constant-product) pool the code's
`calculate_swap_output` equals the spec formula
`balanceOut × (1 − balanceIn/(balanceIn + amountIn × (1 − feeRate)))`
(fee deducted from the input first), and for reserves
1,000,000 / 2,000,000 with fee 0.3% an input of 100,000 yields an output
strictly between 150,000 and 200,000. -/
theorem calculate_swap_output_constant_product
    (pool : PoolInfo) (tin tout : String) (amount_in : Nat) (cin cout : Coin)
    (hty : pool.pool_type = .Balancer)
    (hin : pool.liquidity.find? (fun c => c.denom == tin) = some cin)
    (hout : pool.liquidity.find? (fun c => c.denom == tout) = some cout)
    (hpos : 0 < cin.amount) :
    calculate_swap_output pool tin tout amount_in =
      .ok (constantProductOut cin.amount cout.amount amount_in pool.swap_fee,
           pool.swap_fee) ∧
    (150000 < constantProductOut 1000000 2000000 100000 (decPermille 3) ∧
     constantProductOut 1000000 2000000 100000 (decPermille 3) < 200000) := by
  constructor
  · have hden : ¬(cin.amount + mulUintDec amount_in (decOne - pool.swap_fee) = 0) := by
      omega
    simp [calculate_swap_output, hin, hout, hty, hden, constantProductOut]
  · constructor <;> decide

def examplePool : Router.PoolInfo :=
  { pool_id := 1, chain_id := "osmosis-1", pool_type := .Balancer,
    token_denoms := ["uatom", "uosmo"],
    liquidity := [⟨"uatom", 1000000⟩, ⟨"uosmo", 2000000⟩],
    swap_fee := decPermille 3, exit_fee := 0 }

theorem calculate_swap_output_constant_product_witness :
    Router.calculate_swap_output examplePool "uatom" "uosmo" 100000 =
      .ok (constantProductOut 1000000 2000000 100000 (decPermille 3),
           decPermille 3) ∧
    (150000 < constantProductOut 1000000 2000000 100000 (decPermille 3) ∧
     constantProductOut 1000000 2000000 100000 (decPermille 3) < 200000) :=
  calculate_swap_output_constant_product examplePool "uatom" "uosmo" 100000
    ⟨"uatom", 1000000⟩ ⟨"uosmo", 2000000⟩ rfl rfl rfl (by decide)

def exUnorderedChannel : Router.IbcChannel :=
  { endpoint := ⟨"wasm.osmo1router", "channel-7"⟩,
    counterparty_endpoint := ⟨"wasm.juno1router", "channel-9"⟩,
    order := .Unordered, version := Router.IBC_VERSION,
    connection_id := "connection-3" }

/-- C9 counterexample.  An `OpenInit` proposal carries no counterparty
version at all, yet `ibc_channel_open` succeeds on it: channel open does
not require a counterparty version string matching the relayer's version —
the version comparison only happens when a counterparty version is
present (`OpenTry`/`OpenAck`). -/
theorem channel_open_without_version_counterexample :
    Router.ibc_channel_open (.OpenInit exUnorderedChannel) =
      .ok (some Router.IBC_VERSION) ∧
    (Router.IbcChannelOpenMsg.OpenInit exUnorderedChannel).counterparty_version =
      none := ⟨rfl, rfl⟩

open Router in
/-- C9 (amended).  `ibc_channel_open` and `ibc_channel_connect` succeed
exactly when the proposed ordering is unordered delivery and any proposed
counterparty version string equals the relayer's version; messages that do
not carry a counterparty version (`OpenInit`, `OpenConfirm`) are checked
for ordering only.  A wrong ordering fails `InvalidIbcChannelOrder` and a
present non-matching version fails `InvalidIbcVersion`. -/
theorem channel_validation_order_and_version :
    (∀ msg : IbcChannelOpenMsg,
       (ibc_channel_open msg = .ok (some IBC_VERSION) ↔
         msg.channel.order = .Unordered ∧
         (msg.counterparty_version = none ∨
          msg.counterparty_version = some IBC_VERSION))) ∧
    (∀ (channels : List IbcChannel) (msg : IbcChannelConnectMsg),
       (ibc_channel_connect channels msg = .ok (channels ++ [msg.channel]) ↔
         msg.channel.order = .Unordered ∧
         (msg.counterparty_version = none ∨
          msg.counterparty_version = some IBC_VERSION))) ∧
    (∀ (ch : IbcChannel) (cv : Option String), ch.order ≠ .Unordered →
       validate_order_and_version ch cv =
         .error (.InvalidIbcChannelOrder .Unordered ch.order)) ∧
    (∀ (ch : IbcChannel) (v : String), ch.order = .Unordered →
       v ≠ IBC_VERSION →
       validate_order_and_version ch (some v) =
         .error (.InvalidIbcVersion IBC_VERSION v)) := by
  have hval : ∀ (ch : IbcChannel) (cv : Option String),
      (validate_order_and_version ch cv = .ok () ↔
        ch.order = .Unordered ∧ (cv = none ∨ cv = some IBC_VERSION)) := by
    intro ch cv
    cases cv with
    | none =>
      by_cases ho : ch.order = .Unordered <;>
        simp [validate_order_and_version, ho]
    | some v =>
      by_cases ho : ch.order = .Unordered <;>
        by_cases hv : v = IBC_VERSION <;>
          simp [validate_order_and_version, ho, hv]
  refine ⟨fun msg => ?_, fun channels msg => ?_, fun ch cv ho => ?_, fun ch v ho hv => ?_⟩
  · rw [show (ibc_channel_open msg = .ok (some IBC_VERSION) ↔
        validate_order_and_version msg.channel msg.counterparty_version = .ok ()) from ?_]
    · exact hval _ _
    · unfold ibc_channel_open
      cases hv : validate_order_and_version msg.channel msg.counterparty_version with
      | error e => simp [hv]
      | ok u => cases u; simp [hv]
  · rw [show (ibc_channel_connect channels msg = .ok (channels ++ [msg.channel]) ↔
        validate_order_and_version msg.channel msg.counterparty_version = .ok ()) from ?_]
    · exact hval _ _
    · unfold ibc_channel_connect
      cases hv : validate_order_and_version msg.channel msg.counterparty_version with
      | error e => simp [hv]
      | ok u => cases u; simp [hv]
  · simp [validate_order_and_version, ho]
  · simp [validate_order_and_version, ho, hv]

def exOrderedChannel : Router.IbcChannel :=
  { exUnorderedChannel with order := .Ordered }

theorem channel_validation_order_and_version_witness :
    Router.ibc_channel_open (.OpenTry exUnorderedChannel Router.IBC_VERSION) =
      .ok (some Router.IBC_VERSION) ∧
    Router.validate_order_and_version exOrderedChannel (some Router.IBC_VERSION) =
      .error (.InvalidIbcChannelOrder .Unordered .Ordered) ∧
    Router.validate_order_and_version exUnorderedChannel (some "ics20-1") =
      .error (.InvalidIbcVersion Router.IBC_VERSION "ics20-1") :=
  ⟨(channel_validation_order_and_version.1
      (.OpenTry exUnorderedChannel Router.IBC_VERSION)).mpr
      ⟨rfl, Or.inr rfl⟩,
   channel_validation_order_and_version.2.2.1 exOrderedChannel
     (some Router.IBC_VERSION) (by decide),
   channel_validation_order_and_version.2.2.2 exUnorderedChannel "ics20-1" rfl
     (by decide)⟩

def exForward : Router.ForwardInstruction :=
  .mk "transfer" "channel-2" "juno1receiver" 300 0 none

def exSwapInstruction : Router.SwapInstruction :=
  .mk 1 "uosmo" (some 1000) (some exForward)

def exPacket : Router.IbcPacketData :=
  { sender := "cosmos1sender", receiver := "osmo1receiver", denom := "uatom",
    amount := 2000, memo := some exSwapInstruction }

/-- C6.  Processing a relay packet whose instruction carries a forward:
the next packet goes over `forward.channel` to `forward.receiver` with
instruction `forward.next`, but its `amount` is the inbound
`packet_data.amount` (2000) — not this hop's swap output (the local swap
message pays out 1000) — even though the source comments the argument with
"This would be the swap output amount". -/
theorem process_ibc_swap_forwards_input_amount :
    (Router.process_ibc_swap 1000 exPacket).messages =
      [.bankSend "osmo1receiver" [⟨"uosmo", 1000⟩],
       .sendPacket "channel-2"
         { sender := "osmo1receiver", receiver := "juno1receiver",
           denom := "uosmo", amount := 2000, memo := none } 1300] ∧
    exPacket.amount = 2000 ∧ (2000 : Nat) ≠ 1000 :=
  ⟨rfl, rfl, by decide⟩

def exHop1 : Router.HopRoute :=
  { chain_id := "osmosis-1", pool_id := 1,
    token_in_denom := "uatom", token_out_denom := "uosmo" }

def exHop2 : Router.HopRoute :=
  { chain_id := "juno-1", pool_id := 2,
    token_in_denom := "uosmo", token_out_denom := "ujuno" }

def exChainConfigs : String → Option Router.ChainConfig := fun id =>
  if id = "osmosis-1" then
    some { chain_id := "osmosis-1", chain_prefix := "osmo",
           ibc_channel := "channel-0", native_denom := "uosmo" }
  else if id = "juno-1" then
    some { chain_id := "juno-1", chain_prefix := "juno",
           ibc_channel := "channel-1", native_denom := "ujuno" }
  else none

def examplePool2 : Router.PoolInfo :=
  { pool_id := 2, chain_id := "juno-1", pool_type := .Balancer,
    token_denoms := ["uosmo", "ujuno"],
    liquidity := [⟨"uosmo", 3000000⟩, ⟨"ujuno", 5000000⟩],
    swap_fee := decPermille 3, exit_fee := 0 }

def exStore : Router.RouterStore :=
  { pools := fun pid =>
      if pid = 1 then some examplePool
      else if pid = 2 then some examplePool2
      else none,
    protocol_config := ProtocolConfig.default,
    chain_configs := exChainConfigs,
    routers := fun id =>
      if id = "osmosis-1" then some "osmo1router123"
      else if id = "juno-1" then some "juno1router456"
      else none,
    registry_contract := none,
    registry_router := fun _ => .error "no registry contract" }

/-- C5 counterexample.  For the two-hop path `[exHop1, exHop2]` the memo
built for the first hop has a forward whose `next` is `none`: the second
hop's instruction (and its `minOutput`) is not nested inside, so the
structure has depth 1, not the path length 2. -/
theorem build_hop_memo_not_nested_counterexample :
    Router.build_hop_memo exStore exHop1 false 500 [exHop2] =
      .ok (.mk ⟨1, "uosmo", none⟩
        (some (.mk "transfer" "channel-1" "juno1router456" 300 0 none))) ∧
    Router.memoDepth
      (.mk ⟨1, "uosmo", none⟩
        (some (.mk "transfer" "channel-1" "juno1router456" 300 0 none))) = 1 ∧
    ([exHop1, exHop2] : List Router.HopRoute).length = 2 ∧ (1 : Nat) ≠ 2 :=
  ⟨rfl, rfl, rfl, by decide⟩

/-- Inversion of `build_hop_memo`: either the memo has no forward (final
hop, or no remaining hops), or it wraps a forward naming the next hop's
channel and router with `next = none`. -/
theorem build_hop_memo_ok_cases {store : Router.RouterStore} {hop : Router.HopRoute}
    {is_final : Bool} {min_output : Nat} {remaining : List Router.HopRoute}
    {m : Router.HopMemo}
    (h : Router.build_hop_memo store hop is_final min_output remaining = .ok m) :
    (m = .mk ⟨hop.pool_id, hop.token_out_denom,
        if is_final then some (toString min_output) else none⟩ none ∧
      (is_final = true ∨ remaining = [])) ∨
    (∃ next_hop rest cc receiver, is_final = false ∧ remaining = next_hop :: rest ∧
      store.chain_configs next_hop.chain_id = some cc ∧
      Router.get_router_address store next_hop.chain_id = .ok receiver ∧
      m = .mk ⟨hop.pool_id, hop.token_out_denom, none⟩
        (some (.mk "transfer" cc.ibc_channel receiver Router.IBC_TIMEOUT_BUFFER 0 none))) := by
  cases is_final with
  | true =>
    left
    unfold Router.build_hop_memo at h
    refine ⟨?_, Or.inl rfl⟩
    cases remaining <;> simpa using h.symm
  | false =>
    cases remaining with
    | nil =>
      left
      unfold Router.build_hop_memo at h
      exact ⟨by simpa using h.symm, Or.inr rfl⟩
    | cons next_hop rest =>
      right
      cases hcc : store.chain_configs next_hop.chain_id with
      | none => simp [Router.build_hop_memo, hcc] at h
      | some cc =>
        cases hrecv : Router.get_router_address store next_hop.chain_id with
        | error e => simp [Router.build_hop_memo, hcc, hrecv] at h
        | ok receiver =>
          refine ⟨next_hop, rest, cc, receiver, rfl, rfl, hcc, hrecv, ?_⟩
          simp only [Router.build_hop_memo, hcc, hrecv, Except.ok.injEq] at h
          exact h.symm

/-- Any memo `build_hop_memo` produces has nesting depth 1. -/
theorem build_hop_memo_depth {store : Router.RouterStore} {hop : Router.HopRoute}
    {is_final : Bool} {min_output : Nat} {remaining : List Router.HopRoute}
    {m : Router.HopMemo}
    (h : Router.build_hop_memo store hop is_final min_output remaining = .ok m) :
    Router.memoDepth m = 1 := by
  rcases build_hop_memo_ok_cases h with ⟨rfl, -⟩ | ⟨_, _, _, _, -, -, -, -, rfl⟩ <;> rfl

/-- Every memo carried by a message built by `build_multi_hop_loop` has
depth 1: the emitted packet sequence is flat, never nested. -/
theorem build_multi_hop_loop_memos_flat (store : Router.RouterStore) (sender : String)
    (tmo mo : Nat) :
    ∀ (routes : List Router.HopRoute) (amt : Nat) (dn : String)
      (msgs : List Router.RCosmosMsg),
      Router.build_multi_hop_loop store sender tmo mo routes amt dn = .ok msgs →
      ∀ ch pd t, Router.RCosmosMsg.sendPacketHop ch pd t ∈ msgs →
        ∀ mm, pd.memo = some mm → Router.memoDepth mm = 1 := by
  intro routes
  induction routes with
  | nil =>
    intro amt dn msgs h ch pd t hmem mm hmm
    unfold Router.build_multi_hop_loop at h
    cases Except.ok.inj h
    simp at hmem
  | cons hop rest ih =>
    intro amt dn msgs h ch pd t hmem mm hmm
    unfold Router.build_multi_hop_loop at h
    split at h
    · simp at h
    · rename_i chain_config hcc
      split at h
      · simp at h
      · rename_i memo hmemo
        split at h
        · simp at h
        · rename_i receiver hrecv
          split at h
          · -- rest = []
            cases Except.ok.inj h
            simp only [List.mem_singleton] at hmem
            cases hmem
            simp only [Option.some.injEq] at hmm
            subst hmm
            exact build_hop_memo_depth hmemo
          · -- rest = _ :: _
            split at h
            · simp at h
            · rename_i pool_info hpool
              split at h
              · simp at h
              · rename_i out hcalc
                split at h
                · simp at h
                · rename_i msgs2 hrec
                  cases Except.ok.inj h
                  rcases List.mem_cons.mp hmem with heq | htail
                  · cases heq
                    simp only [Option.some.injEq] at hmm
                    subst hmm
                    exact build_hop_memo_depth hmemo
                  · exact ih _ _ _ hrec ch pd t htail mm hmm

open Router in
/-- C5 (amended).  Each hop's memo carries that hop's swap instruction,
with `minOutput` present exactly on the final hop; a non-final hop's memo
carries a forward naming the next hop's channel and router address but
with `next = none` — the builder never nests the next hop's instruction,
so every memo (including the first hop's, for any path length) has depth
1, and `build_multi_hop_messages` instead emits one flat packet per hop. -/
theorem build_hop_memo_flat_structure :
    (∀ (store : RouterStore) (hop : HopRoute) (is_final : Bool) (min_output : Nat)
        (remaining : List HopRoute) (m : HopMemo),
        build_hop_memo store hop is_final min_output remaining = .ok m →
        (m.swap = ⟨hop.pool_id, hop.token_out_denom,
           if is_final then some (toString min_output) else none⟩) ∧
        memoDepth m = 1 ∧
        (is_final = true → m.forward = none) ∧
        (remaining = [] → m.forward = none) ∧
        (∀ next_hop rest, is_final = false → remaining = next_hop :: rest →
          ∃ cc receiver, store.chain_configs next_hop.chain_id = some cc ∧
            get_router_address store next_hop.chain_id = .ok receiver ∧
            m.forward = some (.mk "transfer" cc.ibc_channel receiver
              IBC_TIMEOUT_BUFFER 0 none))) ∧
    (∀ (store : RouterStore) (sender dn : String) (routes : List HopRoute)
        (amount_in min_output tts : Nat) (msgs : List RCosmosMsg),
        build_multi_hop_messages store sender dn routes amount_in min_output tts =
          .ok msgs →
        ∀ ch pd t, RCosmosMsg.sendPacketHop ch pd t ∈ msgs →
          ∀ mm, pd.memo = some mm → memoDepth mm = 1) := by
  constructor
  · intro store hop is_final min_output remaining m h
    rcases build_hop_memo_ok_cases h with ⟨rfl, hor⟩ |
      ⟨nh, rest0, cc, receiver, hfin, hrem, hcc, hrecv, rfl⟩
    · refine ⟨rfl, rfl, fun _ => rfl, fun _ => rfl, ?_⟩
      intro next_hop rest hfin hrem
      rcases hor with h1 | h1
      · rw [hfin] at h1; cases h1
      · rw [hrem] at h1; cases h1
    · subst hfin
      subst hrem
      refine ⟨rfl, rfl, ?_, ?_, ?_⟩
      · intro hcontra
        exact absurd hcontra (by simp)
      · intro hcontra
        exact absurd hcontra (by simp)
      · intro next_hop rest hfin2 heq
        injection heq with e1 e2
        subst e1
        exact ⟨cc, receiver, hcc, hrecv, rfl⟩
  · intro store sender dn routes amount_in min_output tts msgs h ch pd t hmem mm hmm
    exact build_multi_hop_loop_memos_flat store sender
      (tts - Router.IBC_TIMEOUT_BUFFER) min_output routes amount_in dn msgs h
      ch pd t hmem mm hmm

theorem build_hop_memo_flat_structure_witness :
    Router.memoDepth (.mk ⟨2, "ujuno", some (toString (500 : Nat))⟩ none) = 1 ∧
    (Router.HopMemo.mk ⟨2, "ujuno", some (toString (500 : Nat))⟩ none).forward = none :=
  have happ := build_hop_memo_flat_structure.1 exStore exHop2 true 500 []
    (.mk ⟨2, "ujuno", some (toString (500 : Nat))⟩ none) rfl
  ⟨happ.2.1, happ.2.2.1 rfl⟩

/-! ## Properties of the route finder (C7) -/

theorem mem_insertDesc {x y : Router.RouteNode} {l : List Router.RouteNode} :
    y ∈ Router.insertDesc x l ↔ y = x ∨ y ∈ l := by
  induction l with
  | nil => simp [Router.insertDesc]
  | cons z zs ih =>
    by_cases h : z.amount < x.amount
    · simp [Router.insertDesc, h]
    · simp [Router.insertDesc, h, ih]
      tauto

theorem sorted_insertDesc {x : Router.RouteNode} {l : List Router.RouteNode}
    (h : l.Pairwise (fun a b => b.amount ≤ a.amount)) :
    (Router.insertDesc x l).Pairwise (fun a b => b.amount ≤ a.amount) := by
  induction l with
  | nil => simp [Router.insertDesc]
  | cons z zs ih =>
    rcases List.pairwise_cons.mp h with ⟨hz, hzs⟩
    by_cases hlt : z.amount < x.amount
    · rw [Router.insertDesc, if_pos hlt]
      refine List.pairwise_cons.mpr ⟨?_, h⟩
      intro b hb
      rcases List.mem_cons.mp hb with rfl | hb2
      · omega
      · have := hz b hb2
        omega
    · rw [Router.insertDesc, if_neg hlt]
      refine List.pairwise_cons.mpr ⟨?_, ih hzs⟩
      intro b hb
      rcases mem_insertDesc.mp hb with rfl | hb2
      · omega
      · exact hz b hb2

theorem sorted_sortByAmountDesc (l : List Router.RouteNode) :
    (Router.sortByAmountDesc l).Pairwise (fun a b => b.amount ≤ a.amount) := by
  induction l with
  | nil => simp [Router.sortByAmountDesc]
  | cons x xs ih => exact sorted_insertDesc ih

theorem mem_sortByAmountDesc {y : Router.RouteNode} {l : List Router.RouteNode} :
    y ∈ Router.sortByAmountDesc l ↔ y ∈ l := by
  induction l with
  | nil => simp [Router.sortByAmountDesc]
  | cons x xs ih => simp [Router.sortByAmountDesc, mem_insertDesc, ih]

/-- Executable pool well-formedness: every listed denom has a liquidity
entry, and all liquidity balances are positive (so no swap-output
computation can fail or hit a zero denominator). -/
def poolWF (p : Router.PoolInfo) : Bool :=
  p.token_denoms.all (fun d => (p.liquidity.find? (fun c => c.denom == d)).isSome) &&
  p.liquidity.all (fun c => decide (0 < c.amount))

/-- Every pool in the discovery range is well-formed. -/
def WFStore (store : Router.RouterStore) : Prop :=
  ∀ pid ∈ Router.rangeIds store.protocol_config.routing.pool_discovery_range,
    ((store.pools pid).map poolWF).getD true = true

theorem WFStore_pool {store : Router.RouterStore} {pid : Nat} {p : Router.PoolInfo}
    (hwf : WFStore store)
    (hmem : pid ∈ Router.rangeIds store.protocol_config.routing.pool_discovery_range)
    (hp : store.pools pid = some p) :
    (∀ d ∈ p.token_denoms, (p.liquidity.find? (fun c => c.denom == d)).isSome) ∧
    (∀ c ∈ p.liquidity, 0 < c.amount) := by
  have h := hwf pid hmem
  rw [hp] at h
  simp only [Option.map_some', Option.getD_some, poolWF, Bool.and_eq_true,
    List.all_eq_true, decide_eq_true_eq] at h
  exact h

theorem calculate_swap_output_isOk (pool : Router.PoolInfo) (din dout : String)
    (amt : Nat)
    (hin : (pool.liquidity.find? (fun c => c.denom == din)).isSome)
    (hout : (pool.liquidity.find? (fun c => c.denom == dout)).isSome)
    (hpos : ∀ c ∈ pool.liquidity, 0 < c.amount) :
    ∃ out, Router.calculate_swap_output pool din dout amt = .ok out := by
  obtain ⟨cin, hcin⟩ := Option.isSome_iff_exists.mp hin
  obtain ⟨cout, hcout⟩ := Option.isSome_iff_exists.mp hout
  have hcpos : 0 < cin.amount := hpos _ (List.mem_of_find?_eq_some hcin)
  unfold Router.calculate_swap_output
  rw [hcin, hcout]
  cases pool.pool_type with
  | Balancer =>
    have hden : ¬(cin.amount + mulUintDec amt (decOne - pool.swap_fee) = 0) := by omega
    refine ⟨(mulUintDec cout.amount
      (decOne - decFrac cin.amount (cin.amount + mulUintDec amt (decOne - pool.swap_fee))),
      pool.swap_fee), ?_⟩
    simp [hden]
  | StableSwap =>
    exact ⟨(mulUintDec amt (decOne - pool.swap_fee), pool.swap_fee), by simp⟩
  | ConcentratedLiquidity =>
    have hden : ¬(cin.amount = 0) := by omega
    refine ⟨(mulUintDec (mulUintDec amt (decOne - pool.swap_fee))
      (decFrac cout.amount cin.amount), pool.swap_fee), ?_⟩
    simp [hden]

/-- The pool-graph edge relation over the discovery range: two distinct
denominations are adjacent when some registered pool lists both. -/
def RouteAdj (store : Router.RouterStore) (d d' : String) : Prop :=
  ∃ pid p, pid ∈ Router.rangeIds store.protocol_config.routing.pool_discovery_range ∧
    store.pools pid = some p ∧ d ∈ p.token_denoms ∧ d' ∈ p.token_denoms ∧ d ≠ d'

/-- The BFS loop invariant: every queued node is reachable from the start
denomination with a path within the hop bound, and every recorded route
witnesses reachability of the end denomination within the hop bound. -/
def SearchInv (store : Router.RouterStore) (start end_denom : String) (mh : Nat)
    (st : Router.SearchState) : Prop :=
  (∀ n ∈ st.queue,
     Relation.ReflTransGen (RouteAdj store) start n.denom ∧ n.path.length ≤ mh) ∧
  (∀ r ∈ st.routes,
     Relation.ReflTransGen (RouteAdj store) start end_denom ∧ r.path.length ≤ mh)

/-- The node a BFS expansion enqueues for a neighbouring denomination:
one more hop through the given pool. -/
def bfsChildNode (pool : Router.PoolInfo) (node : Router.RouteNode) (other : String)
    (amount_out fee : Nat) : Router.RouteNode :=
  { denom := other, amount := amount_out,
    path := node.path ++ [{ chain_id := pool.chain_id, pool_id := pool.pool_id,
                            token_in_denom := node.denom, token_out_denom := other }],
    total_fee := node.total_fee + fee }

theorem processDenom_inv {store : Router.RouterStore} {start end_denom : String}
    {mh : Nat} (max_explore : Nat) {pool : Router.PoolInfo} {node : Router.RouteNode}
    {st : Router.SearchState} {other : String}
    (hwfp : (∀ d ∈ pool.token_denoms,
               (pool.liquidity.find? (fun c => c.denom == d)).isSome) ∧
            (∀ c ∈ pool.liquidity, 0 < c.amount))
    (hnode : Relation.ReflTransGen (RouteAdj store) start node.denom)
    (hlen : node.path.length < mh)
    (hadj : ∃ pid,
       pid ∈ Router.rangeIds store.protocol_config.routing.pool_discovery_range ∧
       store.pools pid = some pool ∧ node.denom ∈ pool.token_denoms)
    (hother : other ∈ pool.token_denoms)
    (hinv : SearchInv store start end_denom mh st) :
    ∃ st', Router.processDenom end_denom max_explore pool node st other = .ok st' ∧
      SearchInv store start end_denom mh st' := by
  by_cases hskip : other = node.denom ∨ st.visited.contains other
  · exact ⟨st, by rw [Router.processDenom, if_pos hskip], hinv⟩
  · have hmemd : node.denom ∈ pool.token_denoms := by
      obtain ⟨pid, -, -, hm⟩ := hadj
      exact hm
    obtain ⟨out, hout⟩ := calculate_swap_output_isOk pool node.denom other node.amount
      (hwfp.1 _ hmemd) (hwfp.1 _ hother) hwfp.2
    obtain ⟨amount_out, fee⟩ := out
    have hstep : RouteAdj store node.denom other := by
      obtain ⟨pid, hpidmem, hpidp, hdmem⟩ := hadj
      exact ⟨pid, pool, hpidmem, hpidp, hdmem, hother,
        fun he => hskip (Or.inl he.symm)⟩
    have hreach : Relation.ReflTransGen (RouteAdj store) start other :=
      Relation.ReflTransGen.tail hnode hstep
    have hlen' : ∀ hop : Router.HopRoute, (node.path ++ [hop]).length ≤ mh := by
      intro hop
      simp only [List.length_append, List.length_singleton]
      omega
    have hcomp : Router.processDenom end_denom max_explore pool node st other =
        (if other = end_denom then
          Except.ok { st with
            routes := st.routes ++ [bfsChildNode pool node other amount_out fee] }
        else
          Except.ok { st with
            queue := st.queue ++ [bfsChildNode pool node other amount_out fee],
            visited := if st.routes.length < max_explore then
                         st.visited ++ [other]
                       else st.visited }) := by
      rw [Router.processDenom, if_neg hskip, hout]
      rfl
    by_cases hend : other = end_denom
    · rw [hcomp, if_pos hend]
      refine ⟨_, rfl, hinv.1, ?_⟩
      intro r hr
      rcases List.mem_append.mp hr with hr1 | hr2
      · exact hinv.2 r hr1
      · simp only [List.mem_singleton] at hr2
        subst hr2
        exact ⟨hend ▸ hreach, hlen' _⟩
    · rw [hcomp, if_neg hend]
      refine ⟨_, rfl, ?_, hinv.2⟩
      intro n hn
      rcases List.mem_append.mp hn with hn1 | hn2
      · exact hinv.1 n hn1
      · simp only [List.mem_singleton] at hn2
        subst hn2
        exact ⟨hreach, hlen' _⟩

theorem processDenoms_inv {store : Router.RouterStore} {start end_denom : String}
    {mh : Nat} (max_explore : Nat) {pool : Router.PoolInfo} {node : Router.RouteNode}
    (hwfp : (∀ d ∈ pool.token_denoms,
               (pool.liquidity.find? (fun c => c.denom == d)).isSome) ∧
            (∀ c ∈ pool.liquidity, 0 < c.amount))
    (hnode : Relation.ReflTransGen (RouteAdj store) start node.denom)
    (hlen : node.path.length < mh)
    (hadj : ∃ pid,
       pid ∈ Router.rangeIds store.protocol_config.routing.pool_discovery_range ∧
       store.pools pid = some pool ∧ node.denom ∈ pool.token_denoms) :
    ∀ (ds : List String) (st : Router.SearchState),
      (∀ d ∈ ds, d ∈ pool.token_denoms) →
      SearchInv store start end_denom mh st →
      ∃ st', Router.processDenoms end_denom max_explore pool node ds st = .ok st' ∧
        SearchInv store start end_denom mh st' := by
  intro ds
  induction ds with
  | nil => exact fun st _ hinv => ⟨st, rfl, hinv⟩
  | cons d rest ih =>
    intro st hsub hinv
    obtain ⟨st1, h1, hinv1⟩ := processDenom_inv max_explore hwfp hnode hlen hadj
      (hsub d (List.mem_cons_self d rest)) hinv
    obtain ⟨st2, h2, hinv2⟩ := ih st1 (fun x hx => hsub x (List.mem_cons_of_mem d hx)) hinv1
    refine ⟨st2, ?_, hinv2⟩
    rw [Router.processDenoms, h1]
    exact h2

theorem processPools_inv {store : Router.RouterStore} {start end_denom : String}
    {mh : Nat} {node : Router.RouteNode} (hwf : WFStore store)
    (hnode : Relation.ReflTransGen (RouteAdj store) start node.denom)
    (hlen : node.path.length < mh) :
    ∀ (pids : List Nat) (st : Router.SearchState),
      (∀ pid ∈ pids,
        pid ∈ Router.rangeIds store.protocol_config.routing.pool_discovery_range ∧
        ∃ p, store.pools pid = some p ∧ node.denom ∈ p.token_denoms) →
      SearchInv store start end_denom mh st →
      ∃ st', Router.processPools store end_denom node pids st = .ok st' ∧
        SearchInv store start end_denom mh st' := by
  intro pids
  induction pids with
  | nil => exact fun st _ hinv => ⟨st, rfl, hinv⟩
  | cons pid rest ih =>
    intro st hsub hinv
    obtain ⟨hpidmem, p, hp, hdmem⟩ := hsub pid (List.mem_cons_self pid rest)
    obtain ⟨st1, h1, hinv1⟩ := processDenoms_inv
      store.protocol_config.routing.max_routes_to_explore
      (WFStore_pool hwf hpidmem hp) hnode hlen
      ⟨pid, hpidmem, hp, hdmem⟩ p.token_denoms st (fun _ hx => hx) hinv
    obtain ⟨st2, h2, hinv2⟩ := ih st1 (fun x hx => hsub x (List.mem_cons_of_mem pid hx)) hinv1
    refine ⟨st2, ?_, hinv2⟩
    rw [Router.processPools, hp]
    show (match Router.processDenoms end_denom
        store.protocol_config.routing.max_routes_to_explore p node
        p.token_denoms st with
      | Except.error e => (Except.error e : Except String Router.SearchState)
      | Except.ok st2 => Router.processPools store end_denom node rest st2) =
      Except.ok st2
    rw [h1]
    exact h2

theorem find_pools_with_denom_spec {store : Router.RouterStore} {denom : String}
    {pid : Nat} (hpid : pid ∈ Router.find_pools_with_denom store denom) :
    pid ∈ Router.rangeIds store.protocol_config.routing.pool_discovery_range ∧
    ∃ p, store.pools pid = some p ∧ denom ∈ p.token_denoms := by
  unfold Router.find_pools_with_denom at hpid
  rw [List.mem_filter] at hpid
  refine ⟨hpid.1, ?_⟩
  have h2 := hpid.2
  cases hpool : store.pools pid with
  | none => rw [hpool] at h2; cases h2
  | some p =>
    rw [hpool] at h2
    exact ⟨p, rfl, List.mem_of_elem_eq_true h2⟩

theorem bfsLoop_inv {store : Router.RouterStore} {start end_denom : String}
    {mh : Nat} (hwf : WFStore store) :
    ∀ (fuel : Nat) (st : Router.SearchState),
      SearchInv store start end_denom mh st →
      ∃ routes, Router.bfsLoop store end_denom mh fuel st = .ok routes ∧
        ∀ r ∈ routes,
          Relation.ReflTransGen (RouteAdj store) start end_denom ∧
          r.path.length ≤ mh := by
  intro fuel
  induction fuel with
  | zero => exact fun st hinv => ⟨st.routes, rfl, hinv.2⟩
  | succ fuel ih =>
    intro st hinv
    obtain ⟨q, vis, rts⟩ := st
    cases hq : q with
    | nil =>
      subst hq
      exact ⟨rts, rfl, hinv.2⟩
    | cons node rest =>
      subst hq
      have hrest : SearchInv store start end_denom mh ⟨rest, vis, rts⟩ := by
        refine ⟨?_, hinv.2⟩
        intro n hn
        exact hinv.1 n (List.mem_cons_of_mem node hn)
      have hnodeok := hinv.1 node (List.mem_cons_self node rest)
      by_cases hmax : mh ≤ node.path.length
      · obtain ⟨routes, hres, hprop⟩ := ih _ hrest
        refine ⟨routes, ?_, hprop⟩
        show (if mh ≤ node.path.length then
            Router.bfsLoop store end_denom mh fuel ⟨rest, vis, rts⟩
          else
            match Router.processPools store end_denom node
                (Router.find_pools_with_denom store node.denom) ⟨rest, vis, rts⟩ with
            | Except.error e => (Except.error e : Except String (List Router.RouteNode))
            | Except.ok st2 => Router.bfsLoop store end_denom mh fuel st2) =
          Except.ok routes
        rw [if_pos hmax]
        exact hres
      · have hlen : node.path.length < mh := by omega
        obtain ⟨st1, h1, hinv1⟩ := processPools_inv hwf hnodeok.1 hlen
          (Router.find_pools_with_denom store node.denom) ⟨rest, vis, rts⟩
          (fun pid hpid => find_pools_with_denom_spec hpid) hrest
        obtain ⟨routes, hres, hprop⟩ := ih st1 hinv1
        refine ⟨routes, ?_, hprop⟩
        show (if mh ≤ node.path.length then
            Router.bfsLoop store end_denom mh fuel ⟨rest, vis, rts⟩
          else
            match Router.processPools store end_denom node
                (Router.find_pools_with_denom store node.denom) ⟨rest, vis, rts⟩ with
            | Except.error e => (Except.error e : Except String (List Router.RouteNode))
            | Except.ok st2 => Router.bfsLoop store end_denom mh fuel st2) =
          Except.ok routes
        rw [if_neg hmax, h1]
        exact hres

open Router in
/-- C7.  Under a well-formed pool registry `find_best_routes` returns
`Ok` (never an error), its result is sorted in descending order of final
output amount, contains at most 5 routes, contains no route longer than
the requested hop limit clamped to the configured protocol maximum, and is
empty whenever the pool graph admits no path from the start denomination
to the end denomination. -/
theorem find_best_routes_sorted_bounded_empty (store : RouterStore)
    (start_denom end_denom : String) (amount_in : Nat) (max_hops : Option Nat)
    (hwf : WFStore store) :
    ∃ routes,
      find_best_routes store start_denom end_denom amount_in max_hops = .ok routes ∧
      routes.Pairwise (fun a b => b.amount ≤ a.amount) ∧
      routes.length ≤ 5 ∧
      (∀ r ∈ routes, r.path.length ≤
        min (max_hops.getD store.protocol_config.routing.max_hops)
          store.protocol_config.routing.max_hops) ∧
      (¬ Relation.ReflTransGen (RouteAdj store) start_denom end_denom →
        routes = []) := by
  have hinv0 : SearchInv store start_denom end_denom
      (min (max_hops.getD store.protocol_config.routing.max_hops)
        store.protocol_config.routing.max_hops)
      ⟨[⟨start_denom, amount_in, [], 0⟩], [start_denom], []⟩ := by
    constructor
    · intro n hn
      simp only [List.mem_singleton] at hn
      subst hn
      exact ⟨Relation.ReflTransGen.refl, by simp⟩
    · intro r hr
      simp at hr
  obtain ⟨all, hall, hprop⟩ := bfsLoop_inv hwf
    (Router.bfsFuel store (min (max_hops.getD store.protocol_config.routing.max_hops)
      store.protocol_config.routing.max_hops)) _ hinv0
  have hrun : Router.find_best_routes store start_denom end_denom amount_in max_hops =
      Except.ok ((Router.sortByAmountDesc all).take 5) := by
    have heq : Router.find_best_routes store start_denom end_denom amount_in max_hops =
        (match Router.bfsLoop store end_denom
            (min (max_hops.getD store.protocol_config.routing.max_hops)
              store.protocol_config.routing.max_hops)
            (Router.bfsFuel store
              (min (max_hops.getD store.protocol_config.routing.max_hops)
                store.protocol_config.routing.max_hops))
            ⟨[⟨start_denom, amount_in, [], 0⟩], [start_denom], []⟩ with
          | Except.error e => (Except.error e : Except String (List Router.RouteNode))
          | Except.ok all_routes =>
            Except.ok ((Router.sortByAmountDesc all_routes).take 5)) := rfl
    rw [heq, hall]
  refine ⟨(Router.sortByAmountDesc all).take 5, hrun, ?_, ?_, ?_, ?_⟩
  · exact List.Pairwise.sublist (List.take_sublist 5 _) (sorted_sortByAmountDesc all)
  · exact List.length_take_le 5 _
  · intro r hr
    exact (hprop r (mem_sortByAmountDesc.mp (List.mem_of_mem_take hr))).2
  · intro hnr
    cases hall2 : all with
    | nil => rfl
    | cons r rest =>
      exact absurd (hprop r (by rw [hall2]; exact List.mem_cons_self r rest)).1 hnr

/-- The example store with a small pool-discovery range, keeping concrete
evaluation of the search cheap. -/
def exStoreSmall : Router.RouterStore :=
  { exStore with
    protocol_config :=
      { swap := ProtocolConfig.default.swap,
        routing := { max_hops := 4, max_routes_to_explore := 100,
                     minimal_amount := 1000,
                     pool_discovery_range := { start := 1, range_end := 10 } } } }

theorem find_best_routes_sorted_bounded_empty_witness :
    ∃ routes,
      Router.find_best_routes exStoreSmall "uatom" "ujuno" 100000 none = .ok routes ∧
      routes.Pairwise (fun a b => b.amount ≤ a.amount) ∧
      routes.length ≤ 5 ∧
      (∀ r ∈ routes, r.path.length ≤ 4) ∧
      (¬ Relation.ReflTransGen (RouteAdj exStoreSmall) "uatom" "ujuno" → routes = []) :=
  find_best_routes_sorted_bounded_empty exStoreSmall "uatom" "ujuno" 100000 none
    (by unfold WFStore; decide)
